import Mathlib

/-!
# Verification of the botserver SVG-fixing scripts

Shallow embedding of the Python batch scripts that rewrite SVG files
(`fix_svgs_properly.py`, `fix_svg_attributes.py`, `safe_svg_improve.py`,
`minimal_svg_fix.py`, `fix_all_svgs.py`, `beautify_all_svgs.py`,
`rebuild_svgs.py`), together with theorems about the claims of the
specification.  File contents are modelled as `List Char`; Python
`re.sub` with a literal pattern (and `str.replace`) is modelled by a
leftmost, non-overlapping replacement scanner, and each non-literal
regular expression of the scripts is modelled by a hand-translated
matcher with the same backtracking semantics on the pattern involved.
ASCII case folding models Python's `str.lower` / `re.IGNORECASE` on the
ASCII patterns used by the scripts.
-/

set_option maxRecDepth 100000

namespace SvgSpec

/-! ## §0 Basic string machinery -/

/-- Characters of a string literal, the representation of file content. -/
def s2l (s : String) : List Char := s.data

/-- ASCII lower-casing of one character (models `str.lower` on ASCII). -/
def lowerChar (c : Char) : Char :=
  if 'A' ≤ c ∧ c ≤ 'Z' then Char.ofNat (c.toNat + 32) else c

/-- ASCII lower-casing of a character list. -/
def lowerL (s : List Char) : List Char := s.map lowerChar

/-- `pfxB p s` decides whether `p` is a prefix of `s`. -/
def pfxB : List Char → List Char → Bool
  | [], _ => true
  | _ :: _, [] => false
  | a :: as, b :: bs => a == b && pfxB as bs

/-- `sfxB p s` decides whether `p` is a suffix of `s`. -/
def sfxB (p : List Char) : List Char → Bool
  | [] => p == []
  | c :: t => p == c :: t || sfxB p t

/-- `subB p s` decides whether `p` occurs as a contiguous substring of `s`. -/
def subB (p : List Char) : List Char → Bool
  | [] => pfxB p []
  | c :: t => pfxB p (c :: t) || subB p t

/-- `p` is a prefix of `s`. -/
def pfx (p s : List Char) : Prop := ∃ t, s = p ++ t

/-- `p` is a suffix of `s`. -/
def sfx (p s : List Char) : Prop := ∃ t, s = t ++ p

/-- `p` occurs as a contiguous substring of `s`. -/
def subOf (p s : List Char) : Prop := ∃ u v, s = u ++ p ++ v

theorem pfxB_iff {p s : List Char} : pfxB p s = true ↔ pfx p s := by
  induction p generalizing s with
  | nil => simp [pfxB, pfx]
  | cons a as ih =>
    cases s with
    | nil =>
      simp only [pfxB, pfx]
      constructor
      · intro h; cases h
      · rintro ⟨t, ht⟩; cases ht
    | cons b bs =>
      simp only [pfxB, Bool.and_eq_true, beq_iff_eq, ih, pfx]
      constructor
      · rintro ⟨rfl, t, rfl⟩; exact ⟨t, rfl⟩
      · rintro ⟨t, ht⟩
        injection ht with h1 h2
        exact ⟨h1.symm, t, h2⟩

theorem sfxB_iff {p s : List Char} : sfxB p s = true ↔ sfx p s := by
  induction s with
  | nil =>
    simp only [sfxB, beq_iff_eq, sfx]
    constructor
    · rintro rfl; exact ⟨[], rfl⟩
    · rintro ⟨t, ht⟩
      rcases List.append_eq_nil.mp ht.symm with ⟨_, h2⟩
      exact h2
  | cons c t ih =>
    simp only [sfxB, Bool.or_eq_true, beq_iff_eq, ih, sfx]
    constructor
    · rintro (rfl | ⟨u, rfl⟩)
      · exact ⟨[], rfl⟩
      · exact ⟨c :: u, rfl⟩
    · rintro ⟨u, hu⟩
      cases u with
      | nil => exact Or.inl hu.symm
      | cons x xs =>
        injection hu with h1 h2
        exact Or.inr ⟨xs, h2⟩

theorem subB_iff {p s : List Char} : subB p s = true ↔ subOf p s := by
  induction s with
  | nil =>
    simp only [subB, pfxB_iff, pfx, subOf]
    constructor
    · rintro ⟨t, ht⟩
      exact ⟨[], t, by simpa using ht⟩
    · rintro ⟨u, v, huv⟩
      rcases List.append_eq_nil.mp huv.symm with ⟨h1, h2⟩
      rcases List.append_eq_nil.mp h1 with ⟨h3, h4⟩
      exact ⟨[], by simp [h2, h4]⟩
  | cons c t ih =>
    simp only [subB, Bool.or_eq_true, pfxB_iff, pfx, ih, subOf]
    constructor
    · rintro (⟨u, hu⟩ | ⟨u, v, huv⟩)
      · exact ⟨[], u, by simpa using hu⟩
      · exact ⟨c :: u, v, by simp [huv]⟩
    · rintro ⟨u, v, huv⟩
      cases u with
      | nil => exact Or.inl ⟨v, by simpa using huv⟩
      | cons x xs =>
        injection huv with h1 h2
        exact Or.inr ⟨xs, v, h2⟩

/-- Every `k < n` satisfies `f`. -/
def rangeAll (f : ℕ → Bool) : ℕ → Bool
  | 0 => true
  | k + 1 => rangeAll f k && f k

theorem rangeAll_iff {f : ℕ → Bool} {n : ℕ} :
    rangeAll f n = true ↔ ∀ k < n, f k = true := by
  induction n with
  | zero => simp [rangeAll]
  | succ n ih =>
    simp only [rangeAll, Bool.and_eq_true, ih]
    constructor
    · rintro ⟨h1, h2⟩ k hk
      rcases Nat.lt_succ_iff_lt_or_eq.mp hk with h | rfl
      · exact h1 k h
      · exact h2
    · intro h
      exact ⟨fun k hk => h k (Nat.lt_succ_of_lt hk), h n (Nat.lt_succ_self n)⟩

/-- Value of a decimal-digit string (models Python `int` on matched digits). -/
def digitsToNat (ds : List Char) : ℕ :=
  ds.foldl (fun a c => 10 * a + (c.toNat - 48)) 0

/-- Decimal digits of a natural number, most significant first
(auxiliary, fuel-driven). -/
def natReprAux : ℕ → ℕ → List Char → List Char
  | 0, _, acc => acc
  | fuel + 1, n, acc =>
    let d := Char.ofNat (48 + n % 10)
    if n < 10 then d :: acc else natReprAux fuel (n / 10) (d :: acc)

/-- Decimal representation of a natural number (models Python `str` on `int ≥ 0`). -/
def natRepr (n : ℕ) : List Char := natReprAux (n + 1) n []

/-- Decimal representation of an integer (models Python `str` on `int`). -/
def intRepr : ℤ → List Char
  | .ofNat n => natRepr n
  | .negSucc m => '-' :: natRepr (m + 1)

/-! ## §1 Leftmost non-overlapping literal replacement

`repAll p r s` replaces every occurrence of the literal pattern `p` in
`s` by `r`, scanning left to right and never rescanning replaced text:
the semantics of Python `str.replace` and of `re.sub` with a literal
pattern.  The fuel argument (one unit per character consumed) makes the
definition structurally recursive. -/

def repAllF (p r : List Char) : ℕ → List Char → List Char
  | _, [] => []
  | 0, c :: s => c :: s
  | fuel + 1, c :: s =>
    if pfxB p (c :: s) && !(p.isEmpty) then
      r ++ repAllF p r fuel ((c :: s).drop p.length)
    else
      c :: repAllF p r fuel s

/-- Replace every occurrence of `p` in `s` by `r`, leftmost first,
non-overlapping (Python `str.replace`, `re.sub` with a literal pattern). -/
def repAll (p r s : List Char) : List Char := repAllF p r s.length s

/-! ### Substring decompositions -/

theorem subOf_of_pfx {q s : List Char} (h : pfx q s) : subOf q s := by
  obtain ⟨t, rfl⟩ := h
  exact ⟨[], t, rfl⟩

theorem subOf_cons_of {q t : List Char} {c : Char} (h : subOf q t) :
    subOf q (c :: t) := by
  obtain ⟨u, v, rfl⟩ := h
  exact ⟨c :: u, v, rfl⟩

theorem subOf_cons {q t : List Char} {c : Char} :
    subOf q (c :: t) ↔ pfx q (c :: t) ∨ subOf q t := by
  constructor
  · rintro ⟨u, v, huv⟩
    cases u with
    | nil => exact Or.inl ⟨v, by simpa using huv⟩
    | cons x xs =>
      injection huv with h1 h2
      exact Or.inr ⟨xs, v, h2⟩
  · rintro (h | h)
    · exact subOf_of_pfx h
    · exact subOf_cons_of h

theorem sfx_cons {x a : List Char} {c : Char} (h : sfx x a) : sfx x (c :: a) := by
  obtain ⟨t, rfl⟩ := h
  exact ⟨c :: t, rfl⟩

theorem sfx_length {y q : List Char} (h : sfx y q) : y.length ≤ q.length := by
  obtain ⟨t, rfl⟩ := h
  simp

theorem sfx_of_cons_sfx {a : Char} {y' q : List Char} (h : sfx (a :: y') q) :
    sfx y' q := by
  obtain ⟨t, rfl⟩ := h
  exact ⟨t ++ [a], by simp⟩

theorem pfx_append_cases {y a b : List Char} (h : pfx y (a ++ b)) :
    pfx y a ∨ ∃ w, y = a ++ w ∧ pfx w b := by
  induction a generalizing y with
  | nil => exact Or.inr ⟨y, rfl, by simpa using h⟩
  | cons c a' ih =>
    cases y with
    | nil => exact Or.inl ⟨c :: a', rfl⟩
    | cons d y' =>
      obtain ⟨t, ht⟩ := h
      injection ht with h1 h2
      rcases ih ⟨t, h2⟩ with h3 | ⟨w, rfl, hw⟩
      · obtain ⟨u, hu⟩ := h3
        exact Or.inl ⟨u, by rw [h1, hu]; rfl⟩
      · exact Or.inr ⟨w, by rw [h1]; rfl, hw⟩

theorem subOf_append {q a b : List Char} (h : subOf q (a ++ b)) :
    subOf q a ∨ subOf q b ∨
      ∃ x y, q = x ++ y ∧ x ≠ [] ∧ y ≠ [] ∧ sfx x a ∧ pfx y b := by
  induction a generalizing q with
  | nil => exact Or.inr (Or.inl (by simpa using h))
  | cons c a' ih =>
    rcases subOf_cons.mp (by simpa using h) with h1 | h2
    · cases q with
      | nil => exact Or.inl ⟨[], c :: a', rfl⟩
      | cons d q' =>
        obtain ⟨t, ht⟩ := h1
        injection ht with hc hq
        rcases pfx_append_cases ⟨t, hq⟩ with h3 | ⟨w, rfl, hw⟩
        · obtain ⟨u, hu⟩ := h3
          exact Or.inl ⟨[], u, by rw [hc, hu]; rfl⟩
        · cases w with
          | nil =>
            exact Or.inl ⟨[], [], by rw [hc]; simp⟩
          | cons e w' =>
            refine Or.inr (Or.inr ⟨c :: a', e :: w', ?_, by simp, by simp, ⟨[], by simp [hc]⟩, hw⟩)
            rw [hc]; rfl
    · rcases ih h2 with h3 | h3 | ⟨x, y, hxy, hxne, hyne, hxa, hyb⟩
      · exact Or.inl (subOf_cons_of h3)
      · exact Or.inr (Or.inl h3)
      · exact Or.inr (Or.inr ⟨x, y, hxy, hxne, hyne, sfx_cons hxa, hyb⟩)

theorem subOf_drop {q l : List Char} {n : ℕ} (h : subOf q (l.drop n)) :
    subOf q l := by
  obtain ⟨u, v, huv⟩ := h
  refine ⟨l.take n ++ u, v, ?_⟩
  conv_lhs => rw [← List.take_append_drop n l]
  rw [huv]
  simp [List.append_assoc]

/-! ### Safety condition: the replacement cannot re-create the pattern -/

theorem take_len_app (x t : List Char) : (x ++ t).take x.length = x := by
  induction x with
  | nil => simp
  | cons a as ih => simp [ih]

theorem drop_len_app (x t : List Char) : (x ++ t).drop x.length = t := by
  induction x with
  | nil => simp
  | cons a as ih => simp [ih]

/-- Suffix test by length arithmetic (equivalent to `sfxB`, cheaper to
evaluate). -/
def sfxFast (p s : List Char) : Bool :=
  decide (p.length ≤ s.length) && pfxB p (s.drop (s.length - p.length))

theorem sfxFast_iff {p s : List Char} : sfxFast p s = true ↔ sfx p s := by
  unfold sfxFast
  rw [Bool.and_eq_true, decide_eq_true_eq]
  constructor
  · rintro ⟨hlen, hpfx⟩
    rw [pfxB_iff] at hpfx
    obtain ⟨t, ht⟩ := hpfx
    have hdl : (s.drop (s.length - p.length)).length = p.length := by
      simp only [List.length_drop]
      omega
    have ht0 : t = [] := by
      have h2 := congrArg List.length ht
      simp only [List.length_append, hdl] at h2
      exact List.length_eq_zero.mp (by omega)
    subst ht0
    refine ⟨s.take (s.length - p.length), ?_⟩
    conv_lhs => rw [← List.take_append_drop (s.length - p.length) s]
    rw [ht]
    simp
  · rintro ⟨t, rfl⟩
    constructor
    · simp
    · have hlen : (t ++ p).length - p.length = t.length := by simp
      rw [hlen, drop_len_app, pfxB_iff]
      exact ⟨[], by simp⟩

/-- `safeCond q r` holds when the text `r` can never combine with its
surroundings to form a new occurrence of the pattern `q`: `q` does not
occur in `r`, no nonempty proper prefix of `q` is a suffix of `r`, and
no nonempty proper suffix of `q` is a prefix of `r` or extends `r`. -/
def safeCond (q r : List Char) : Bool :=
  !(subB q r)
  && rangeAll (fun k => if k = 0 then true else !(sfxFast (q.take k) r)) q.length
  && rangeAll
      (fun k => if k = 0 then true else !(pfxB (q.drop k) r) && !(pfxB r (q.drop k)))
      q.length

theorem safeCond_parts {q r : List Char} (h : safeCond q r = true) :
    subB q r = false ∧
    rangeAll (fun k => if k = 0 then true else !(sfxFast (q.take k) r)) q.length = true ∧
    rangeAll
      (fun k => if k = 0 then true else !(pfxB (q.drop k) r) && !(pfxB r (q.drop k)))
      q.length = true := by
  simp only [safeCond, Bool.and_eq_true, Bool.not_eq_true'] at h
  exact ⟨h.1.1, h.1.2, h.2⟩

theorem safeCond_not_sub {q r : List Char} (h : safeCond q r = true) :
    ¬ subOf q r := by
  intro hsub
  rw [← subB_iff] at hsub
  rw [(safeCond_parts h).1] at hsub
  cases hsub

theorem safeCond_pfx {q r : List Char} (h : safeCond q r = true)
    {x : List Char} (hx : pfx x q) (hne : x ≠ []) (hnq : x ≠ q) : ¬ sfx x r := by
  obtain ⟨-, h2, -⟩ := safeCond_parts h
  obtain ⟨t, rfl⟩ := hx
  have hxlen : x.length < (x ++ t).length := by
    cases t with
    | nil => exact absurd (by simp) hnq
    | cons a as => simp only [List.length_append, List.length_cons]; omega
  have hk := rangeAll_iff.mp h2 x.length hxlen
  have hk0 : x.length ≠ 0 := fun h0 => hne (List.length_eq_zero.mp h0)
  rw [if_neg hk0, take_len_app, Bool.not_eq_true'] at hk
  intro hsfx
  rw [← sfxFast_iff] at hsfx
  rw [hk] at hsfx
  cases hsfx

theorem safeCond_sfx {q r : List Char} (h : safeCond q r = true)
    {y : List Char} (hy : sfx y q) (hne : y ≠ []) (hnq : y ≠ q) :
    ¬ pfx y r ∧ ¬ pfx r y := by
  obtain ⟨-, -, h3⟩ := safeCond_parts h
  obtain ⟨t, rfl⟩ := hy
  have ht0 : t.length ≠ 0 := by
    intro h0
    exact hnq (by rw [List.length_eq_zero.mp h0]; rfl)
  have htlt : t.length < (t ++ y).length := by
    have hy0 : y.length ≠ 0 := fun h0 => hne (List.length_eq_zero.mp h0)
    simp only [List.length_append]; omega
  have hk := rangeAll_iff.mp h3 t.length htlt
  rw [if_neg ht0, drop_len_app, Bool.and_eq_true, Bool.not_eq_true', Bool.not_eq_true'] at hk
  constructor
  · intro hp
    rw [← pfxB_iff] at hp
    rw [hk.1] at hp
    cases hp
  · intro hp
    rw [← pfxB_iff] at hp
    rw [hk.2] at hp
    cases hp

/-! ### The replacement scanner cannot re-create a safe pattern -/

/-- A nonempty proper suffix of the pattern `q` that heads the scanner's
output must already head the unprocessed text: the replacement text `r`
never starts such a suffix. -/
theorem repAllF_pfx_inv (q p r : List Char) (hc : safeCond q r = true) :
    ∀ fuel s y, s.length ≤ fuel → y ≠ [] → y ≠ q → sfx y q →
      pfx y (repAllF p r fuel s) → pfx y s := by
  intro fuel
  induction fuel with
  | zero =>
    intro s y hlen hne _ _ hpfx
    have hs : s = [] := List.length_eq_zero.mp (Nat.le_zero.mp hlen)
    subst hs
    obtain ⟨t, ht⟩ := hpfx
    simp only [repAllF] at ht
    rcases List.append_eq_nil.mp ht.symm with ⟨h1, -⟩
    exact absurd h1 hne
  | succ fuel ih =>
    intro s y hlen hne hneq hsfx hpfx
    cases s with
    | nil =>
      obtain ⟨t, ht⟩ := hpfx
      simp only [repAllF] at ht
      rcases List.append_eq_nil.mp ht.symm with ⟨h1, -⟩
      exact absurd h1 hne
    | cons c s' =>
      by_cases hm : (pfxB p (c :: s') && !(p.isEmpty)) = true
      · rw [repAllF, if_pos hm] at hpfx
        rcases pfx_append_cases hpfx with hyr | ⟨w, rfl, -⟩
        · exact absurd hyr (safeCond_sfx hc hsfx hne hneq).1
        · exact absurd ⟨w, rfl⟩ (safeCond_sfx hc hsfx hne hneq).2
      · rw [repAllF, if_neg hm] at hpfx
        obtain ⟨t, ht⟩ := hpfx
        cases y with
        | nil => exact absurd rfl hne
        | cons a y' =>
          injection ht with h1 h2
          cases y' with
          | nil => exact ⟨s', by rw [h1]; rfl⟩
          | cons b y'' =>
            have hlt : (b :: y'').length < (a :: b :: y'').length := by
              simp only [List.length_cons]; omega
            have hy'q : (b :: y'') ≠ q := by
              intro hq
              have := sfx_length hsfx
              rw [← hq] at this
              simp only [List.length_cons] at this hlt
              omega
            have hstep := ih s' (b :: y'')
              (by simpa using Nat.le_of_succ_le_succ hlen)
              (by simp) hy'q (sfx_of_cons_sfx hsfx) ⟨t, h2⟩
            obtain ⟨u, hu⟩ := hstep
            exact ⟨u, by rw [h1, hu]; rfl⟩

/-- After `repAll p r`, the pattern `p` no longer occurs anywhere,
provided `r` satisfies `safeCond p r`. -/
theorem repAllF_elim (p r : List Char) (hp : p ≠ []) (hc : safeCond p r = true) :
    ∀ fuel s, s.length ≤ fuel → ¬ subOf p (repAllF p r fuel s) := by
  intro fuel
  induction fuel with
  | zero =>
    intro s hlen hsub
    have hs : s = [] := List.length_eq_zero.mp (Nat.le_zero.mp hlen)
    subst hs
    simp only [repAllF] at hsub
    obtain ⟨u, v, huv⟩ := hsub
    rcases List.append_eq_nil.mp huv.symm with ⟨h1, -⟩
    rcases List.append_eq_nil.mp h1 with ⟨-, h2⟩
    exact absurd h2 hp
  | succ fuel ih =>
    intro s hlen hsub
    cases s with
    | nil =>
      simp only [repAllF] at hsub
      obtain ⟨u, v, huv⟩ := hsub
      rcases List.append_eq_nil.mp huv.symm with ⟨h1, -⟩
      rcases List.append_eq_nil.mp h1 with ⟨-, h2⟩
      exact absurd h2 hp
    | cons c s' =>
      have hp1 : 1 ≤ p.length := List.length_pos.mpr hp
      by_cases hm : (pfxB p (c :: s') && !(p.isEmpty)) = true
      · rw [repAllF, if_pos hm] at hsub
        rcases subOf_append hsub with h1 | h2 | ⟨x, y, hxy, hxne, hyne, hxr, -⟩
        · exact safeCond_not_sub hc h1
        · refine ih _ ?_ h2
          simp only [List.length_drop, List.length_cons]
          simp only [List.length_cons] at hlen
          omega
        · have hxq : x ≠ p := by
            intro hq
            subst hq
            have : y = [] := by
              have := congrArg List.length hxy
              simp only [List.length_append] at this
              exact List.length_eq_zero.mp (by omega)
            exact hyne this
          exact absurd hxr (safeCond_pfx hc ⟨y, hxy⟩ hxne hxq)
      · rw [repAllF, if_neg hm] at hsub
        rcases subOf_cons.mp hsub with h1 | h2
        · cases p with
          | nil => exact hp rfl
          | cons a p' =>
            obtain ⟨t, ht⟩ := h1
            injection ht with hca hrest
            cases p' with
            | nil =>
              apply hm
              simp [pfxB, List.isEmpty, hca]
            | cons b p'' =>
              have hpin := repAllF_pfx_inv (a :: b :: p'') (a :: b :: p'') r hc fuel s' (b :: p'')
                (by simpa using Nat.le_of_succ_le_succ hlen)
                (by simp)
                (by intro hq; have := congrArg List.length hq; simp at this)
                ⟨[a], rfl⟩ ⟨t, hrest⟩
              obtain ⟨u, hu⟩ := hpin
              apply hm
              have : pfxB (a :: b :: p'') (c :: s') = true := by
                rw [pfxB_iff]
                exact ⟨u, by rw [hca, hu]; rfl⟩
              simp [this, List.isEmpty]
        · refine ih s' ?_ h2
          simpa using Nat.le_of_succ_le_succ hlen

/-- `repAll p r` preserves absence of any pattern `q` protected by
`safeCond q r`: a substitution with a safe replacement text cannot
introduce an occurrence of `q` that was not already present. -/
theorem repAllF_pres (q p r : List Char) (hq : q ≠ []) (hc : safeCond q r = true) :
    ∀ fuel s, s.length ≤ fuel → ¬ subOf q s → ¬ subOf q (repAllF p r fuel s) := by
  intro fuel
  induction fuel with
  | zero =>
    intro s hlen hns hsub
    have hs : s = [] := List.length_eq_zero.mp (Nat.le_zero.mp hlen)
    subst hs
    simp only [repAllF] at hsub
    exact hns hsub
  | succ fuel ih =>
    intro s hlen hns hsub
    cases s with
    | nil =>
      simp only [repAllF] at hsub
      exact hns hsub
    | cons c s' =>
      by_cases hm : (pfxB p (c :: s') && !(p.isEmpty)) = true
      · have hp : p ≠ [] := by
          rw [Bool.and_eq_true] at hm
          obtain ⟨-, h2⟩ := hm
          rw [Bool.not_eq_true', List.isEmpty_eq_false] at h2
          exact h2
        have hp1 : 1 ≤ p.length := List.length_pos.mpr hp
        rw [repAllF, if_pos hm] at hsub
        rcases subOf_append hsub with h1 | h2 | ⟨x, y, hxy, hxne, hyne, hxr, -⟩
        · exact safeCond_not_sub hc h1
        · refine ih _ ?_ (fun hd => hns (subOf_drop hd)) h2
          simp only [List.length_drop, List.length_cons]
          simp only [List.length_cons] at hlen
          omega
        · have hxq : x ≠ q := by
            intro hxq
            subst hxq
            have : y = [] := by
              have := congrArg List.length hxy
              simp only [List.length_append] at this
              exact List.length_eq_zero.mp (by omega)
            exact hyne this
          exact absurd hxr (safeCond_pfx hc ⟨y, hxy⟩ hxne hxq)
      · rw [repAllF, if_neg hm] at hsub
        rcases subOf_cons.mp hsub with h1 | h2
        · cases q with
          | nil => exact hq rfl
          | cons a q' =>
            obtain ⟨t, ht⟩ := h1
            injection ht with hca hrest
            cases q' with
            | nil =>
              exact hns (subOf_of_pfx ⟨s', by rw [hca]; rfl⟩)
            | cons b q'' =>
              have hpin := repAllF_pfx_inv (a :: b :: q'') p r hc fuel s' (b :: q'')
                (by simpa using Nat.le_of_succ_le_succ hlen)
                (by simp)
                (by intro hq2; have := congrArg List.length hq2; simp at this)
                ⟨[a], rfl⟩ ⟨t, hrest⟩
              obtain ⟨u, hu⟩ := hpin
              exact hns (subOf_of_pfx ⟨u, by rw [hca, hu]; rfl⟩)
        · refine ih s' ?_ (fun hd => hns (subOf_cons_of hd)) h2
          simpa using Nat.le_of_succ_le_succ hlen

theorem repAll_elim {p r : List Char} (hp : p ≠ []) (hc : safeCond p r = true)
    (s : List Char) : ¬ subOf p (repAll p r s) :=
  repAllF_elim p r hp hc s.length s le_rfl

theorem repAll_pres {q p r : List Char} (hq : q ≠ []) (hc : safeCond q r = true)
    {s : List Char} (hns : ¬ subOf q s) : ¬ subOf q (repAll p r s) :=
  repAllF_pres q p r hq hc s.length s le_rfl hns

/-! ### Chains of substitutions -/

/-- Apply a list of literal substitutions in order (the shape of every
color-remap loop in the scripts). -/
def applySubs : List (List Char × List Char) → List Char → List Char
  | [], s => s
  | pr :: rest, s => applySubs rest (repAll pr.1 pr.2 s)

/-- `elimIn subs q` holds when some substitution of `subs` has pattern
exactly `q` with a safe replacement, and every later substitution's
replacement is also safe for `q`: then `q` cannot occur in the output. -/
def elimIn : List (List Char × List Char) → List Char → Bool
  | [], _ => false
  | pr :: rest, q =>
    (pr.1 == q && !(q.isEmpty) && safeCond q pr.2
      && rest.all (fun pr2 => safeCond q pr2.2))
    || elimIn rest q

theorem applySubs_pres {q : List Char} (hq : q ≠ []) :
    ∀ subs : List (List Char × List Char),
      (∀ pr ∈ subs, safeCond q pr.2 = true) →
      ∀ s, ¬ subOf q s → ¬ subOf q (applySubs subs s) := by
  intro subs
  induction subs with
  | nil => intro _ s hns; exact hns
  | cons pr rest ih =>
    intro hall s hns
    exact ih (fun pr2 h2 => hall pr2 (List.mem_cons_of_mem pr h2))
      (repAll pr.1 pr.2 s)
      (repAll_pres hq (hall pr (List.mem_cons_self pr rest)) hns)

theorem applySubs_elim :
    ∀ (subs : List (List Char × List Char)) (q : List Char),
      elimIn subs q = true → ∀ s, ¬ subOf q (applySubs subs s) := by
  intro subs
  induction subs with
  | nil => intro q h; cases h
  | cons pr rest ih =>
    intro q h s
    rw [elimIn, Bool.or_eq_true] at h
    rcases h with h | h
    · rw [Bool.and_eq_true, Bool.and_eq_true, Bool.and_eq_true] at h
      obtain ⟨⟨⟨hpq, hqne⟩, hsafe⟩, hrest⟩ := h
      have hq : q ≠ [] := by
        rw [Bool.not_eq_true', List.isEmpty_eq_false] at hqne
        exact hqne
      have hpq' : pr.1 = q := by
        exact eq_of_beq hpq
      show ¬ subOf q (applySubs rest (repAll pr.1 pr.2 s))
      refine applySubs_pres hq rest ?_ _ ?_
      · intro pr2 h2
        exact List.all_eq_true.mp hrest pr2 h2
      · rw [hpq']
        exact repAll_elim hq hsafe s
    · exact ih q h (repAll pr.1 pr.2 s)

theorem elimIn_of_global :
    ∀ (subs : List (List Char × List Char)) (q : List Char),
      q.isEmpty = false →
      subs.any (fun pr => pr.1 == q) = true →
      (∀ pr ∈ subs, safeCond q pr.2 = true) →
      elimIn subs q = true := by
  intro subs
  induction subs with
  | nil => intro q _ hmem _; cases hmem
  | cons pr rest ih =>
    intro q hq hmem hall
    rw [elimIn, Bool.or_eq_true]
    rw [List.any_cons, Bool.or_eq_true] at hmem
    rcases hmem with hmem | hmem
    · refine Or.inl ?_
      rw [Bool.and_eq_true, Bool.and_eq_true, Bool.and_eq_true]
      refine ⟨⟨⟨hmem, ?_⟩, hall pr (List.mem_cons_self pr rest)⟩, ?_⟩
      · rw [Bool.not_eq_true', hq]
      · rw [List.all_eq_true]
        intro pr2 h2
        exact hall pr2 (List.mem_cons_of_mem pr h2)
    · exact Or.inr (ih q hq hmem
        (fun pr2 h2 => hall pr2 (List.mem_cons_of_mem pr h2)))

/-! ## §2 Case-insensitive replacement (Python `re.IGNORECASE` on ASCII) -/

/-- Case-insensitive prefix test (ASCII folding). -/
def pfxCIB : List Char → List Char → Bool
  | [], _ => true
  | _ :: _, [] => false
  | a :: as, b :: bs => (lowerChar a == lowerChar b) && pfxCIB as bs

/-- Case-insensitive literal replacement with fuel. -/
def repAllCIF (p r : List Char) : ℕ → List Char → List Char
  | _, [] => []
  | 0, c :: s => c :: s
  | fuel + 1, c :: s =>
    if pfxCIB p (c :: s) && !(p.isEmpty) then
      r ++ repAllCIF p r fuel ((c :: s).drop p.length)
    else
      c :: repAllCIF p r fuel s

/-- Replace every case-insensitive occurrence of `p` in `s` by `r`
(Python `re.sub(pattern, repl, s, flags=re.IGNORECASE)` with a literal
ASCII pattern). -/
def repAllCI (p r s : List Char) : List Char := repAllCIF p r s.length s

/-- Apply a list of case-insensitive literal substitutions in order. -/
def applySubsCI : List (List Char × List Char) → List Char → List Char
  | [], s => s
  | pr :: rest, s => applySubsCI rest (repAllCI pr.1 pr.2 s)

/-- Lower-case both sides of a substitution pair. -/
def lowerPair (pr : List Char × List Char) : List Char × List Char :=
  (lowerL pr.1, lowerL pr.2)

theorem pfxCIB_eq (p : List Char) :
    ∀ s, pfxCIB p s = pfxB (lowerL p) (lowerL s) := by
  induction p with
  | nil => intro s; simp [pfxCIB, lowerL, pfxB]
  | cons a as ih =>
    intro s
    cases s with
    | nil => simp [pfxCIB, lowerL, pfxB]
    | cons b bs => simp [pfxCIB, lowerL, pfxB, ih]

theorem lowerL_drop (l : List Char) (n : ℕ) :
    lowerL (l.drop n) = (lowerL l).drop n := by
  simp [lowerL, List.map_drop]

theorem lowerL_repAllCIF (p r : List Char) :
    ∀ fuel s,
      lowerL (repAllCIF p r fuel s) = repAllF (lowerL p) (lowerL r) fuel (lowerL s) := by
  intro fuel
  induction fuel with
  | zero =>
    intro s
    cases s with
    | nil => simp [repAllCIF, repAllF, lowerL]
    | cons c t => simp [repAllCIF, repAllF, lowerL]
  | succ fuel ih =>
    intro s
    cases s with
    | nil => simp [repAllCIF, repAllF, lowerL]
    | cons c t =>
      have hcond : (pfxCIB p (c :: t) && !(p.isEmpty))
          = (pfxB (lowerL p) (lowerL (c :: t)) && !((lowerL p).isEmpty)) := by
        rw [pfxCIB_eq]
        cases p <;> simp [lowerL, List.isEmpty]
      have hlow : lowerL (c :: t) = lowerChar c :: lowerL t := rfl
      by_cases hm : (pfxCIB p (c :: t) && !(p.isEmpty)) = true
      · have hm' : (pfxB (lowerL p) (lowerChar c :: lowerL t)
            && !((lowerL p).isEmpty)) = true := by
          rw [← hlow, ← hcond]; exact hm
        rw [repAllCIF, if_pos hm, hlow, repAllF, if_pos hm']
        have : lowerL (r ++ repAllCIF p r fuel ((c :: t).drop p.length))
            = lowerL r ++ lowerL (repAllCIF p r fuel ((c :: t).drop p.length)) := by
          simp [lowerL]
        rw [this, ih, ← hlow, lowerL_drop]
        have hplen : (lowerL p).length = p.length := by simp [lowerL]
        rw [hplen]
      · have hm' : ¬ (pfxB (lowerL p) (lowerChar c :: lowerL t)
            && !((lowerL p).isEmpty)) = true := by
          rw [← hlow, ← hcond]; exact hm
        rw [repAllCIF, if_neg hm, hlow, repAllF, if_neg hm']
        have : lowerL (c :: repAllCIF p r fuel t)
            = lowerChar c :: lowerL (repAllCIF p r fuel t) := rfl
        rw [this, ih]

theorem lowerL_repAllCI (p r s : List Char) :
    lowerL (repAllCI p r s) = repAll (lowerL p) (lowerL r) (lowerL s) := by
  unfold repAllCI repAll
  rw [lowerL_repAllCIF]
  have : (lowerL s).length = s.length := by simp [lowerL]
  rw [this]

theorem lowerL_applySubsCI (subs : List (List Char × List Char)) :
    ∀ s, lowerL (applySubsCI subs s)
      = applySubs (subs.map lowerPair) (lowerL s) := by
  induction subs with
  | nil => intro s; simp [applySubsCI, applySubs]
  | cons pr rest ih =>
    intro s
    simp only [applySubsCI, applySubs, List.map_cons]
    rw [ih, lowerL_repAllCI]
    rfl

/-! ## §3 Generic `re.sub` / `re.search` drivers

Each non-literal regular expression of the Python scripts is translated
to a matcher `tm : List Char → Option (ℕ × List Char)` which, applied to
the text starting at the current position, returns the number of
characters the match consumes together with the replacement text
(computed from the captured groups exactly as the Python replacement
does).  The drivers below reproduce `re.sub`'s left-to-right,
non-overlapping scan. -/

/-- `re.sub` (all occurrences), fuel-driven. -/
def reSubF (tm : List Char → Option (ℕ × List Char)) : ℕ → List Char → List Char
  | _, [] => []
  | 0, c :: s => c :: s
  | fuel + 1, c :: s =>
    match tm (c :: s) with
    | some (n, repl) =>
      if n = 0 then c :: reSubF tm fuel s
      else repl ++ reSubF tm fuel ((c :: s).drop n)
    | none => c :: reSubF tm fuel s

/-- `re.sub` with all occurrences replaced. -/
def reSub (tm : List Char → Option (ℕ × List Char)) (s : List Char) : List Char :=
  reSubF tm s.length s

/-- `re.sub(..., count=1)`, fuel-driven. -/
def reSubOnceF (tm : List Char → Option (ℕ × List Char)) : ℕ → List Char → List Char
  | _, [] => []
  | 0, c :: s => c :: s
  | fuel + 1, c :: s =>
    match tm (c :: s) with
    | some (n, repl) =>
      if n = 0 then c :: reSubOnceF tm fuel s
      else repl ++ (c :: s).drop n
    | none => c :: reSubOnceF tm fuel s

/-- `re.sub(..., count=1)`: only the first occurrence is replaced. -/
def reSubOnce (tm : List Char → Option (ℕ × List Char)) (s : List Char) : List Char :=
  reSubOnceF tm s.length s

/-- `re.search`: the captures of the leftmost match, fuel-driven. -/
def reFindF {α : Type} (tm : List Char → Option α) : ℕ → List Char → Option α
  | _, [] => tm []
  | 0, c :: s => tm (c :: s)
  | fuel + 1, c :: s =>
    match tm (c :: s) with
    | some a => some a
    | none => reFindF tm fuel s

/-- `re.search`: captures of the leftmost match, if any. -/
def reFind {α : Type} (tm : List Char → Option α) (s : List Char) : Option α :=
  reFindF tm s.length s

/-! ### Shared matcher building blocks -/

/-- Python `\s` on ASCII: space, tab, newline, carriage return,
vertical tab, form feed. -/
def pySpace (c : Char) : Bool :=
  c == ' ' || c == '\t' || c == '\n' || c == '\r'
    || c == Char.ofNat 11 || c == Char.ofNat 12

/-- Matcher for `key([^"]*)"` (with `key` ending in the opening quote):
greedy non-quote run then the mandatory closing quote.  With
`allowEmpty = false` the value must be nonempty (`[^"]+`).  Returns the
consumed length and the captured value. -/
def matchKeyValue (key : List Char) (allowEmpty : Bool) (s : List Char) :
    Option (ℕ × List Char) :=
  if pfxB key s then
    let rest := s.drop key.length
    let v := rest.takeWhile (fun c => !(c == '"'))
    if !allowEmpty && v.isEmpty then none
    else
      match rest.drop v.length with
      | '"' :: _ => some (key.length + v.length + 1, v)
      | _ => none
  else none

/-- Matcher for `key(\d+)"`: greedy ASCII digit run then the closing
quote.  Returns the consumed length and the captured digit string. -/
def matchKeyDigits (key : List Char) (s : List Char) : Option (ℕ × List Char) :=
  if pfxB key s then
    let rest := s.drop key.length
    let ds := rest.takeWhile Char.isDigit
    if ds.isEmpty then none
    else
      match rest.drop ds.length with
      | '"' :: _ => some (key.length + ds.length + 1, ds)
      | _ => none
  else none

/-- Matcher for `font-size="(\d+)"` with a replacement computed from the
captured digit string (the Python replacement functions receive the
match object and call `int` on group 1). -/
def fontSizeTM (repl : List Char → List Char) (s : List Char) :
    Option (ℕ × List Char) :=
  match matchKeyDigits (s2l "font-size=\"") s with
  | some (n, ds) => some (n, repl ds)
  | none => none

/-- Skip predicate shared by all scripts:
`"fontawesome" in str(path).lower() or "favicon" in str(path).lower()`. -/
def pathSkip (p : List Char) : Bool :=
  subB (s2l "fontawesome") (lowerL p) || subB (s2l "favicon") (lowerL p)

/-! ## §4 `fix_svgs_properly.py` -/

namespace FixSvgsProperly

/-- The replacement function of step 2 of `fix_svg_content`
(`increase_font_size`), acting on the captured digit string. -/
def increase_font_size (ds : List Char) : List Char :=
  let size := digitsToNat ds
  if size < 14 then s2l "font-size=\"16\""
  else if size < 16 then s2l "font-size=\"18\""
  else if size < 18 then s2l "font-size=\"20\""
  else s2l "font-size=\"" ++ natRepr (size + 4) ++ s2l "\""

/-- The color remap table of `fix_svg_content` (step 3), in source
order. -/
def color_replacements : List (List Char × List Char) := [
  (s2l "#CBD5E0", s2l "#1F2937"),
  (s2l "#A0AEC0", s2l "#374151"),
  (s2l "#E2E8F0", s2l "#1F2937"),
  (s2l "#EDF2F7", s2l "#111827"),
  (s2l "#F7FAFC", s2l "#111827"),
  (s2l "#9CA3AF", s2l "#374151"),
  (s2l "#D1D5DB", s2l "#4B5563"),
  (s2l "#718096", s2l "#374151"),
  (s2l "#4A5568", s2l "#1F2937"),
  (s2l "#90CDF4", s2l "#1E40AF"),
  (s2l "#63B3ED", s2l "#2563EB"),
  (s2l "#4A90E2", s2l "#1D4ED8"),
  (s2l "#81E6D9", s2l "#0E7490"),
  (s2l "#4FD1C5", s2l "#0891B2"),
  (s2l "#38D4B2", s2l "#0D9488"),
  (s2l "#E9D8FD", s2l "#6B21A8"),
  (s2l "#D6BCFA", s2l "#7C3AED"),
  (s2l "#B794F4", s2l "#9333EA"),
  (s2l "#9F7AEA", s2l "#7C3AED"),
  (s2l "#FBD38D", s2l "#C2410C"),
  (s2l "#F6AD55", s2l "#EA580C"),
  (s2l "#ED8936", s2l "#C2410C"),
  (s2l "#FEB2B2", s2l "#B91C1C"),
  (s2l "#FC8181", s2l "#DC2626"),
  (s2l "#E53E3E", s2l "#DC2626"),
  (s2l "#9AE6B4", s2l "#047857"),
  (s2l "#68D391", s2l "#059669"),
  (s2l "#48BB78", s2l "#047857"),
  (s2l "#38A169", s2l "#059669"),
  (s2l "#B2F5EA", s2l "#047857"),
  (s2l "#888", s2l "#374151"),
  (s2l "#888888", s2l "#374151"),
  (s2l "#FAFAFA", s2l "transparent"),
  (s2l "#fff", s2l "#111827"),
  (s2l "#ffffff", s2l "#111827"),
  (s2l "#FFF", s2l "#111827"),
  (s2l "#FFFFFF", s2l "#111827")]

/-- The four case-insensitive substitutions performed for one table
entry: `fill="old"`, `stroke="old"`, `fill:old`, `stroke:old`. -/
def colorAttrSubs (pr : List Char × List Char) : List (List Char × List Char) :=
  [ (s2l "fill=\"" ++ pr.1 ++ s2l "\"", s2l "fill=\"" ++ pr.2 ++ s2l "\""),
    (s2l "stroke=\"" ++ pr.1 ++ s2l "\"", s2l "stroke=\"" ++ pr.2 ++ s2l "\""),
    (s2l "fill:" ++ pr.1, s2l "fill:" ++ pr.2),
    (s2l "stroke:" ++ pr.1, s2l "stroke:" ++ pr.2) ]

/-- All case-insensitive substitutions of the color-remap loop, in
execution order. -/
def colorSubs : List (List Char × List Char) :=
  color_replacements.flatMap colorAttrSubs

/-- Step 3 of `fix_svg_content`: the color-remap loop. -/
def applyColorReplacements (s : List Char) : List Char := applySubsCI colorSubs s

/-- Matcher for `<rect[^>]*fill="X"[^>]*>` (steps 4a-4d): since `[^>]*`
cannot cross `>`, the pattern matches from `<rect` to the first
following `>` exactly when `fill="X"` occurs in between. -/
def rectRemoveTM (fillPat : List Char) (s : List Char) : Option (ℕ × List Char) :=
  if pfxB (s2l "<rect") s then
    let rest := s.drop 5
    let seg := rest.takeWhile (fun c => !(c == '>'))
    if seg.length < rest.length && subB fillPat seg then
      some (5 + seg.length + 1, [])
    else none
  else none

/-- Matcher for `<svg[^>]*>` with the fixed responsive replacement tag
of step 1 (the extracted `viewbox` is spliced in). -/
def svgTagTM (vb : List Char) (s : List Char) : Option (ℕ × List Char) :=
  if pfxB (s2l "<svg") s then
    let rest := s.drop 4
    let seg := rest.takeWhile (fun c => !(c == '>'))
    if seg.length < rest.length then
      some (4 + seg.length + 1,
        s2l "<svg viewBox=\"" ++ vb
          ++ s2l "\" xmlns=\"http://www.w3.org/2000/svg\" style=\"width: 100%; height: auto; max-width: 100%; display: block;\">")
    else none
  else none

/-- `re.search(r'viewBox="([^"]+)"', content)`: captured group 1. -/
def searchViewBox (s : List Char) : Option (List Char) :=
  reFind (fun t =>
    match matchKeyValue (s2l "viewBox=\"") false t with
    | some (_, v) => some v
    | none => none) s

/-- `re.search(r'width="(\d+)"', content)`: captured group 1. -/
def searchWidth (s : List Char) : Option (List Char) :=
  reFind (fun t =>
    match matchKeyDigits (s2l "width=\"") t with
    | some (_, d) => some d
    | none => none) s

/-- `re.search(r'height="(\d+)"', content)`: captured group 1. -/
def searchHeight (s : List Char) : Option (List Char) :=
  reFind (fun t =>
    match matchKeyDigits (s2l "height=\"") t with
    | some (_, d) => some d
    | none => none) s

/-- Step 1 of `fix_svg_content`: replace the opening `<svg ...>` tag by
the fixed responsive header, choosing the `viewBox` from an existing
`viewBox`, else from `width`/`height`, else the default `0 0 800 600`. -/
def fixSvgHeader (content : List Char) : List Char :=
  if subB (s2l "<svg") content then
    let viewbox :=
      match searchViewBox content with
      | some v => v
      | none =>
        match searchWidth content, searchHeight content with
        | some w, some h => s2l "0 0 " ++ w ++ s2l " " ++ h
        | _, _ => s2l "0 0 800 600"
    reSubOnce (svgTagTM viewbox) content
  else content

/-- Matcher for `viewBox="(\d+)\s+(\d+)\s+(\d+)\s+(\d+)"` (step 9),
returning the four captured numbers. -/
def viewBox4TM (s : List Char) : Option (ℕ × ℕ × ℕ × ℕ) :=
  if pfxB (s2l "viewBox=\"") s then
    let rest := s.drop 9
    let d1 := rest.takeWhile Char.isDigit
    let r1 := rest.drop d1.length
    let w1 := r1.takeWhile pySpace
    let r2 := r1.drop w1.length
    let d2 := r2.takeWhile Char.isDigit
    let r3 := r2.drop d2.length
    let w2 := r3.takeWhile pySpace
    let r4 := r3.drop w2.length
    let d3 := r4.takeWhile Char.isDigit
    let r5 := r4.drop d3.length
    let w3 := r5.takeWhile pySpace
    let r6 := r5.drop w3.length
    let d4 := r6.takeWhile Char.isDigit
    let r7 := r6.drop d4.length
    if d1.isEmpty || w1.isEmpty || d2.isEmpty || w2.isEmpty
        || d3.isEmpty || w3.isEmpty || d4.isEmpty then none
    else
      match r7 with
      | '"' :: _ => some (digitsToNat d1, digitsToNat d2, digitsToNat d3, digitsToNat d4)
      | _ => none
  else none

/-- Matcher for `viewBox="[^"]*"` with a fixed replacement. -/
def viewBoxAnyTM (nvb : List Char) (s : List Char) : Option (ℕ × List Char) :=
  match matchKeyValue (s2l "viewBox=\"") true s with
  | some (n, _) => some (n, nvb)
  | none => none

/-- Step 9 of `fix_svg_content`: add 20px padding to an all-numeric
`viewBox`, replacing the first `viewBox="..."` occurrence. -/
def padViewBox (content : List Char) : List Char :=
  match reFind viewBox4TM content with
  | some (x, y, w, h) =>
    let nvb := s2l "viewBox=\"" ++ intRepr ((x : ℤ) - 20) ++ s2l " "
      ++ intRepr ((y : ℤ) - 20) ++ s2l " " ++ intRepr ((w : ℤ) + 40)
      ++ s2l " " ++ intRepr ((h : ℤ) + 40) ++ s2l "\""
    reSubOnce (viewBoxAnyTM nvb) content
  | none => content

/-- Matcher for `font-family="[^"]*"` with the fixed system font stack
replacement of step 7. -/
def fontFamilyTM (s : List Char) : Option (ℕ × List Char) :=
  match matchKeyValue (s2l "font-family=\"") true s with
  | some (n, _) =>
    some (n, s2l "font-family=\"system-ui, -apple-system, BlinkMacSystemFont, Segoe UI, Roboto, sans-serif\"")
  | none => none

/-- `fix_svg_content(content, filename)` of `fix_svgs_properly.py`
(the `filename` parameter is unused by the Python body and omitted):
the nine transformation steps in source order. -/
def fix_svg_content (content : List Char) : List Char :=
  let c1 := fixSvgHeader content
  let c2 := reSub (fontSizeTM increase_font_size) c1
  let c3 := applyColorReplacements c2
  let c4 := reSub (rectRemoveTM (s2l "fill=\"#FAFAFA\"")) c3
  let c5 := reSub (rectRemoveTM (s2l "fill=\"white\"")) c4
  let c6 := reSub (rectRemoveTM (s2l "fill=\"#FFFFFF\"")) c5
  let c7 := reSub (rectRemoveTM (s2l "fill=\"#ffffff\"")) c6
  let c8 := repAll (s2l "stroke-width=\"1\"") (s2l "stroke-width=\"2\"") c7
  let c9 := repAll (s2l "stroke-width=\"0.5\"") (s2l "stroke-width=\"2\"") c8
  let c10 := repAll (s2l "font-weight=\"bold\"") (s2l "font-weight=\"700\"") c9
  let c11 := reSub fontFamilyTM c10
  let c12 := repAll (s2l "<path d=\"M0,0 L0,6 L9,3 z\" fill=\"#888\"/>")
    (s2l "<path d=\"M0,0 L0,6 L9,3 z\" fill=\"#374151\"/>") c11
  padViewBox c12

/-- `process_all_svgs` of `fix_svgs_properly.py`, abstracted over the
directory listing: font/favicon paths are filtered out up front, every
remaining file is read, transformed and written back unconditionally.
Each output triple is (path, written content, wrote-flag). -/
def process_all_svgs (files : List (List Char × List Char)) :
    List (List Char × List Char × Bool) :=
  (files.filter (fun f => !(pathSkip f.1))).map
    (fun f => (f.1, fix_svg_content f.2, true))

end FixSvgsProperly

/-! ## §5 `fix_svg_attributes.py` -/

namespace FixSvgAttributes

/-- Matcher for `key([^"]+)"\s*/` (steps 1, 2 and, with
`allowEmpty = true` and key `="`, the catch-all step 8 of
`fix_malformed_attributes`): the replacement drops the trailing slash
and any whitespace before it. -/
def attrSlashTM (key : List Char) (allowEmpty : Bool) (s : List Char) :
    Option (ℕ × List Char) :=
  if pfxB key s then
    let rest := s.drop key.length
    let v := rest.takeWhile (fun c => !(c == '"'))
    if !allowEmpty && v.isEmpty then none
    else
      match rest.drop v.length with
      | '"' :: rest2 =>
        let ws := rest2.takeWhile pySpace
        match rest2.drop ws.length with
        | '/' :: _ => some (key.length + v.length + 1 + ws.length + 1, key ++ v ++ ['"'])
        | _ => none
      | _ => none
  else none

/-- Matcher for `rx="([^"]+)"/\s*filter="([^"]+)"` with replacement
`rx="\1" filter="\2"` (step 3). -/
def rxFilterTM (s : List Char) : Option (ℕ × List Char) :=
  if pfxB (s2l "rx=\"") s then
    let rest := s.drop 4
    let v := rest.takeWhile (fun c => !(c == '"'))
    if v.isEmpty then none
    else
      match rest.drop v.length with
      | '"' :: '/' :: rest2 =>
        let ws := rest2.takeWhile pySpace
        let rest3 := rest2.drop ws.length
        if pfxB (s2l "filter=\"") rest3 then
          let rest4 := rest3.drop 8
          let v2 := rest4.takeWhile (fun c => !(c == '"'))
          if v2.isEmpty then none
          else
            match rest4.drop v2.length with
            | '"' :: _ =>
              some (4 + v.length + 2 + ws.length + 8 + v2.length + 1,
                s2l "rx=\"" ++ v ++ s2l "\" filter=\"" ++ v2 ++ s2l "\"")
            | _ => none
        else none
      | _ => none
  else none

/-- `[a-z-]` character class. -/
def isAttrNameChar (c : Char) : Bool := ('a' ≤ c && c ≤ 'z') || c == '-'

/-- Matcher for `"\s+([a-z-]+)="` with replacement `" \1="` (step 5). -/
def attrSpaceTM (s : List Char) : Option (ℕ × List Char) :=
  match s with
  | '"' :: rest =>
    let ws := rest.takeWhile pySpace
    if ws.isEmpty then none
    else
      let rest2 := rest.drop ws.length
      let nm := rest2.takeWhile isAttrNameChar
      if nm.isEmpty then none
      else
        match rest2.drop nm.length with
        | '=' :: _ => some (1 + ws.length + nm.length + 1, s2l "\" " ++ nm ++ s2l "=")
        | _ => none
  | _ => none

/-- Continuation of the `<rect([^>]+)"\s*/\s+([a-z-]+)="([^"]+)">`
matcher (step 6) at a fixed group-1 length `j`. -/
def rectMalformedCont (rest : List Char) (j : ℕ) : Option (ℕ × List Char) :=
  if j = 0 then none
  else
    let g1 := rest.take j
    if g1.length = j && g1.all (fun c => !(c == '>')) then
      match rest.drop j with
      | '"' :: r2 =>
        let ws1 := r2.takeWhile pySpace
        match r2.drop ws1.length with
        | '/' :: r3 =>
          let ws2 := r3.takeWhile pySpace
          if ws2.isEmpty then none
          else
            let r4 := r3.drop ws2.length
            let nm := r4.takeWhile isAttrNameChar
            if nm.isEmpty then none
            else
              match r4.drop nm.length with
              | '=' :: '"' :: r5 =>
                let v := r5.takeWhile (fun c => !(c == '"'))
                if v.isEmpty then none
                else
                  match r5.drop v.length with
                  | '"' :: '>' :: _ =>
                    some (5 + j + 1 + ws1.length + 1 + ws2.length + nm.length
                        + 2 + v.length + 2,
                      s2l "<rect" ++ g1 ++ s2l "\" " ++ nm ++ s2l "=\"" ++ v ++ s2l "\">")
                  | _ => none
              | _ => none
        | _ => none
      | _ => none
    else none

/-- Backtracking over the greedy `([^>]+)` group, longest first. -/
def rectMalformedAux (rest : List Char) : ℕ → Option (ℕ × List Char)
  | 0 => none
  | j + 1 =>
    match rectMalformedCont rest (j + 1) with
    | some a => some a
    | none => rectMalformedAux rest j

/-- Matcher for `<rect([^>]+)"\s*/\s+([a-z-]+)="([^"]+)">` (step 6). -/
def rectMalformedTM (s : List Char) : Option (ℕ × List Char) :=
  if pfxB (s2l "<rect") s then
    rectMalformedAux (s.drop 5) (s.drop 5).length
  else none

/-- Matcher for
`stroke-width="(\d+)"\s+rx="(\d+)"/\s*filter="([^"]+)">` (step 7). -/
def strokeRxFilterTM (s : List Char) : Option (ℕ × List Char) :=
  match matchKeyDigits (s2l "stroke-width=\"") s with
  | some (n1, d1) =>
    let r1 := s.drop n1
    let ws1 := r1.takeWhile pySpace
    if ws1.isEmpty then none
    else
      match matchKeyDigits (s2l "rx=\"") (r1.drop ws1.length) with
      | some (n2, d2) =>
        match (r1.drop ws1.length).drop n2 with
        | '/' :: r3 =>
          let ws2 := r3.takeWhile pySpace
          let r4 := r3.drop ws2.length
          if pfxB (s2l "filter=\"") r4 then
            let r5 := r4.drop 8
            let v := r5.takeWhile (fun c => !(c == '"'))
            if v.isEmpty then none
            else
              match r5.drop v.length with
              | '"' :: '>' :: _ =>
                some (n1 + ws1.length + n2 + 1 + ws2.length + 8 + v.length + 2,
                  s2l "stroke-width=\"" ++ d1 ++ s2l "\" rx=\"" ++ d2
                    ++ s2l "\" filter=\"" ++ v ++ s2l "\">")
              | _ => none
          else none
        | _ => none
      | none => none
  | none => none

/-- Python `content.split("\n")`. -/
def splitNl : List Char → List (List Char)
  | [] => [[]]
  | c :: s =>
    let rest := splitNl s
    if c == '\n' then [] :: rest
    else
      match rest with
      | [] => [[c]]
      | l :: ls => (c :: l) :: ls

/-- Python `"\n".join(lines)`. -/
def joinNl : List (List Char) → List Char
  | [] => []
  | [l] => l
  | l :: ls => l ++ '\n' :: joinNl ls

/-- Python `str.strip()` (whitespace on both ends). -/
def pyStrip (l : List Char) : List Char :=
  ((l.dropWhile pySpace).reverse.dropWhile pySpace).reverse

/-- Python `line.rstrip(">")`: remove all trailing `>` characters. -/
def rstripGt (l : List Char) : List Char :=
  (l.reverse.dropWhile (fun c => c == '>')).reverse

/-- The per-line repair pass of `fix_malformed_attributes`: a line that
mentions `<rect`, ends with `>` (after stripping whitespace) but not
with `/>`, and contains a none/transparent/white fill, has its trailing
`>` characters stripped and `/>` appended. -/
def fixRectLine (line : List Char) : List Char :=
  if subB (s2l "<rect") line
      && sfxB (s2l ">") (pyStrip line)
      && !(sfxB (s2l "/>") (pyStrip line)) then
    if subB (s2l "fill=\"none\"") line || subB (s2l "fill=\"transparent\"") line
        || subB (s2l "fill=\"white\"") line then
      rstripGt line ++ s2l "/>"
    else line
  else line

/-- `fix_malformed_attributes` of `fix_svg_attributes.py`: the eight
regex substitutions in source order followed by the line-based rect
repair pass. -/
def fix_malformed_attributes (content : List Char) : List Char :=
  let c1 := reSub (attrSlashTM (s2l "rx=\"") false) content
  let c2 := reSub (attrSlashTM (s2l "ry=\"") false) c1
  let c3 := reSub rxFilterTM c2
  let c4 := repAll (s2l "/>>") (s2l "/>") c3
  let c5 := reSub attrSpaceTM c4
  let c6 := reSub rectMalformedTM c5
  let c7 := reSub strokeRxFilterTM c6
  let c8 := reSub (attrSlashTM (s2l "=\"") true) c7
  joinNl ((splitNl c8).map fixRectLine)

/-- Per-file statuses of `fix_svg_file`. -/
inductive FixStatus
  | fixed
  | unchanged
  | skipped
  | error
deriving DecidableEq, BEq, Repr

/-- `fix_svg_file` of `fix_svg_attributes.py`: read (a failure is
caught and reported as `error`), skip font/favicon paths, transform,
and write back only when the content changed (a failing write is also
caught as `error`).  The second component is the content written, if
any. (`validate_svg_structure` only prints a warning and does not
affect the file; it is not modelled.) -/
def fix_svg_file (path : List Char) (readRes : Except Unit (List Char))
    (writeOk : Bool) : FixStatus × Option (List Char) :=
  match readRes with
  | .error _ => (.error, none)
  | .ok content =>
    if pathSkip path then (.skipped, none)
    else
      let fixed := fix_malformed_attributes content
      if fixed == content then (.unchanged, none)
      else if writeOk then (.fixed, some fixed)
      else (.error, none)

/-- The observable input of one file in a run of `main`. -/
structure AttrsFile where
  path : List Char
  readRes : Except Unit (List Char)
  writeOk : Bool

/-- Counters of `main`'s `stats` dictionary. -/
structure AttrsStats where
  fixed : ℕ
  unchanged : ℕ
  skipped : ℕ
  error : ℕ
deriving DecidableEq, Repr

/-- The status `main` records for one file. -/
def attrsStep (f : AttrsFile) : FixStatus :=
  (fix_svg_file f.path f.readRes f.writeOk).1

/-- Bump the stats counter selected by a status. -/
def bumpStats (acc : AttrsStats) : FixStatus → AttrsStats
  | .fixed => { acc with fixed := acc.fixed + 1 }
  | .unchanged => { acc with unchanged := acc.unchanged + 1 }
  | .skipped => { acc with skipped := acc.skipped + 1 }
  | .error => { acc with error := acc.error + 1 }

/-- The `for svg_file in svg_files` loop of `main`, with its running
`stats` accumulator; exceptions are caught inside `fix_svg_file`, so
each file yields a status and the loop always continues. -/
def attrsLoopAux : AttrsStats → List AttrsFile → List FixStatus × AttrsStats
  | acc, [] => ([], acc)
  | acc, f :: fs =>
    let st := attrsStep f
    let rest := attrsLoopAux (bumpStats acc st) fs
    (st :: rest.1, rest.2)

/-- The whole `main` loop of `fix_svg_attributes.py`. -/
def attrsLoop (fs : List AttrsFile) : List FixStatus × AttrsStats :=
  attrsLoopAux ⟨0, 0, 0, 0⟩ fs

end FixSvgAttributes

/-! ## §6 `safe_svg_improve.py` -/

/-- An apostrophe character. -/
def apo : Char := Char.ofNat 39

namespace SafeSvgImprove

/-- Matcher for `(<svg[^>]*)(>)` with replacement
`\1 style="max-width: 100%; height: auto;"\2` (step 1; also used by
`minimal_svg_fix.py`, which performs the identical substitution). -/
def svgInjectTM (s : List Char) : Option (ℕ × List Char) :=
  if pfxB (s2l "<svg") s then
    let rest := s.drop 4
    let seg := rest.takeWhile (fun c => !(c == '>'))
    if seg.length < rest.length then
      some (4 + seg.length + 1,
        s2l "<svg" ++ seg ++ s2l " style=\"max-width: 100%; height: auto;\">")
    else none
  else none

/-- `increase_font_size` of `safe_svg_improve.py` on the captured digit
string: sizes below 14 become 14, larger matches are returned verbatim
(`match.group(0)`). -/
def increase_font_size (ds : List Char) : List Char :=
  let size := digitsToNat ds
  if size < 12 then s2l "font-size=\"14\""
  else if size = 12 ∨ size = 13 then s2l "font-size=\"14\""
  else s2l "font-size=\"" ++ ds ++ s2l "\""

/-- The `text_color_improvements` table (step 3), in source order. -/
def text_color_improvements : List (List Char × List Char) := [
  (s2l "#CBD5E0", s2l "#374151"),
  (s2l "#A0AEC0", s2l "#4B5563"),
  (s2l "#718096", s2l "#374151"),
  (s2l "#E9D8FD", s2l "#6B21A8"),
  (s2l "#FBD38D", s2l "#92400E"),
  (s2l "#90CDF4", s2l "#1E40AF"),
  (s2l "#B2F5EA", s2l "#047857"),
  (s2l "#9AE6B4", s2l "#047857")]

/-- One backtracking attempt of the `(<text[^>]*fill="){old}(")`
matcher at group-1 tail length `j`: the replacement keeps the matched
group-1 text verbatim (`\1`) and swaps in the new color. -/
def textFillTryAt (old newc s : List Char) (j : ℕ) : Option (ℕ × List Char) :=
  let rest := s.drop 5
  let g := rest.take j
  if g.length = j && g.all (fun c => !(c == '>'))
      && pfxCIB (s2l "fill=\"" ++ old ++ s2l "\"") (rest.drop j) then
    some (5 + j + 6 + old.length + 1, s.take (5 + j + 6) ++ newc ++ ['"'])
  else none

/-- Backtracking over the greedy `[^>]*` group, longest first. -/
def textFillAux (old newc s : List Char) : ℕ → Option (ℕ × List Char)
  | 0 => textFillTryAt old newc s 0
  | j + 1 =>
    match textFillTryAt old newc s (j + 1) with
    | some a => some a
    | none => textFillAux old newc s j

/-- Matcher for `(<text[^>]*fill="){old}(")` with `re.IGNORECASE`. -/
def textFillTM (old newc : List Char) (s : List Char) : Option (ℕ × List Char) :=
  if pfxCIB (s2l "<text") s then
    textFillAux old newc s (s.drop 5).length
  else none

/-- Step 3: the eight case-insensitive text-fill substitutions. -/
def applyTextColors (s : List Char) : List Char :=
  text_color_improvements.foldl (fun c pr => reSub (textFillTM pr.1 pr.2) c) s

/-- Matcher for `<rect[^>]*/>` with the `add_rounded_corners`
replacement function (step 5): a rect without `rx=` whose fill is
`none` gets ` rx="4"` inserted before the closing `/>`. -/
def roundedRectTM (s : List Char) : Option (ℕ × List Char) :=
  if pfxB (s2l "<rect") s then
    let rest := s.drop 5
    let run := rest.takeWhile (fun c => !(c == '>'))
    if run.length < rest.length && sfxB (s2l "/") run then
      let rect := s2l "<rect" ++ run ++ s2l ">"
      let newRect :=
        if !(subB (s2l "rx=") rect) && subB (s2l "fill=\"none\"") rect then
          rect.take (rect.length - 2) ++ s2l " rx=\"4\"/>"
        else rect
      some (5 + run.length + 1, newRect)
    else none
  else none

/-- The fixed replacement of step 7 (`font-family="Arial, sans-serif"`
becomes the cross-platform stack, which contains single quotes). -/
def safeFontFamilyNew : List Char :=
  s2l "font-family=\"-apple-system, BlinkMacSystemFont, " ++ [apo]
    ++ s2l "Segoe UI" ++ [apo] ++ s2l ", Roboto, Arial, sans-serif\""

/-- The pure content transformation of `safe_improve_svg` (steps 1-8),
in source order. -/
def safeTransform (content : List Char) : List Char :=
  let c1 :=
    if !(subB (s2l "style=") (content.takeWhile (fun c => !(c == '>')))) then
      reSubOnce svgInjectTM content
    else content
  let c2 := reSub (fontSizeTM increase_font_size) c1
  let c3 := applyTextColors c2
  let c4 := repAll (s2l "stroke-width=\"1\"") (s2l "stroke-width=\"2\"") c3
  let c5 := repAll (s2l "stroke-width=\"0.5\"") (s2l "stroke-width=\"2\"") c4
  let c6 := reSub roundedRectTM c5
  let c7 := repAll (s2l "fill=\"#888\"") (s2l "fill=\"#374151\"") c6
  let c8 := repAll (s2l "font-family=\"Arial, sans-serif\"") safeFontFamilyNew c7
  repAll (s2l "font-weight=\"bold\"") (s2l "font-weight=\"600\"") c8

/-- One file as `safe_improve_svg` sees it: its path, its content on
disk, and the sibling `.backup` file's content if that file exists. -/
structure SafeFile where
  path : List Char
  content : List Char
  backup : Option (List Char)
deriving DecidableEq, Repr

/-- `safe_improve_svg` of `safe_svg_improve.py`: skip font/favicon
paths; otherwise transform, and when the content changed write a
`.backup` with the original content unless one already exists, then
write the improved content.  The Bool is the success flag of the
returned pair. -/
def safe_improve_svg (f : SafeFile) : SafeFile × Bool :=
  if pathSkip f.path then (f, false)
  else
    let c2 := safeTransform f.content
    if c2 == f.content then (f, false)
    else
      ({ path := f.path
         content := c2
         backup := match f.backup with | none => some f.content | some b => some b },
       true)

end SafeSvgImprove

/-! ## §7 `minimal_svg_fix.py` -/

namespace MinimalSvgFix

/-- `fix_font_size` of `minimal_svg_fix.py` on the captured digit
string. -/
def fix_font_size (ds : List Char) : List Char :=
  let size := digitsToNat ds
  if size ≤ 11 then s2l "font-size=\"16\""
  else if size = 12 then s2l "font-size=\"18\""
  else if size ≤ 14 then s2l "font-size=\"20\""
  else s2l "font-size=\"" ++ natRepr (size + 4) ++ s2l "\""

/-- The twenty `str.replace` color substitutions of
`minimal_fix_svg`, in source order. -/
def colorSubs : List (List Char × List Char) := [
  (s2l "fill=\"#CBD5E0\"", s2l "fill=\"#1F2937\""),
  (s2l "fill=\"#A0AEC0\"", s2l "fill=\"#374151\""),
  (s2l "fill=\"#718096\"", s2l "fill=\"#374151\""),
  (s2l "fill=\"#E2E8F0\"", s2l "fill=\"#1F2937\""),
  (s2l "fill=\"#90CDF4\"", s2l "fill=\"#1E40AF\""),
  (s2l "fill=\"#63B3ED\"", s2l "fill=\"#2563EB\""),
  (s2l "fill=\"#E9D8FD\"", s2l "fill=\"#7C3AED\""),
  (s2l "fill=\"#D6BCFA\"", s2l "fill=\"#9333EA\""),
  (s2l "fill=\"#B794F4\"", s2l "fill=\"#9333EA\""),
  (s2l "fill=\"#FBD38D\"", s2l "fill=\"#EA580C\""),
  (s2l "fill=\"#F6AD55\"", s2l "fill=\"#D97706\""),
  (s2l "fill=\"#FEB2B2\"", s2l "fill=\"#DC2626\""),
  (s2l "fill=\"#FC8181\"", s2l "fill=\"#EF4444\""),
  (s2l "fill=\"#9AE6B4\"", s2l "fill=\"#10B981\""),
  (s2l "fill=\"#68D391\"", s2l "fill=\"#059669\""),
  (s2l "fill=\"#48BB78\"", s2l "fill=\"#047857\""),
  (s2l "fill=\"#81E6D9\"", s2l "fill=\"#0891B2\""),
  (s2l "fill=\"#4FD1C5\"", s2l "fill=\"#0891B2\""),
  (s2l "fill=\"#B2F5EA\"", s2l "fill=\"#0E7490\""),
  (s2l "fill=\"#888\"", s2l "fill=\"#4B5563\"")]

/-- Step 2 of `minimal_fix_svg`: the chain of `str.replace` calls. -/
def applyColors (s : List Char) : List Char := applySubs colorSubs s

/-- The pure content transformation of `minimal_fix_svg`: font sizes,
color replacements, then the responsive-style injection. -/
def minimalTransform (content : List Char) : List Char :=
  let c1 := reSub (fontSizeTM fix_font_size) content
  let c2 := applyColors c1
  if subB (s2l "<svg") c2
      && !(subB (s2l "style=") (c2.takeWhile (fun c => !(c == '>')))) then
    reSubOnce SafeSvgImprove.svgInjectTM c2
  else c2

/-- `minimal_fix_svg` of `minimal_svg_fix.py`: skip font/favicon paths
(no write, returns False); otherwise transform and write the result
back unconditionally (returns True).  The pair is (content on disk
after the call, wrote flag). -/
def minimal_fix_svg (path content : List Char) : List Char × Bool :=
  if pathSkip path then (content, false)
  else (minimalTransform content, true)

end MinimalSvgFix

/-! ## §8 `fix_all_svgs.py` (color remap and skip structure) -/

namespace FixAllSvgs

/-- The `color_map` table of `fix_svg_file`, in source order. -/
def color_map : List (List Char × List Char) := [
  (s2l "#63B3ED", s2l "#2563EB"),
  (s2l "#90CDF4", s2l "#3B82F6"),
  (s2l "#4A90E2", s2l "#2563EB"),
  (s2l "#CBD5E0", s2l "#1F2937"),
  (s2l "#A0AEC0", s2l "#4B5563"),
  (s2l "#68D391", s2l "#059669"),
  (s2l "#48BB78", s2l "#10B981"),
  (s2l "#38A169", s2l "#059669"),
  (s2l "#9AE6B4", s2l "#10B981"),
  (s2l "#B794F4", s2l "#7C3AED"),
  (s2l "#D6BCFA", s2l "#8B5CF6"),
  (s2l "#9F7AEA", s2l "#7C3AED"),
  (s2l "#E9D8FD", s2l "#8B5CF6"),
  (s2l "#F6AD55", s2l "#EA580C"),
  (s2l "#FBD38D", s2l "#F97316"),
  (s2l "#ED8936", s2l "#EA580C"),
  (s2l "#FC8181", s2l "#DC2626"),
  (s2l "#FEB2B2", s2l "#EF4444"),
  (s2l "#E53E3E", s2l "#DC2626"),
  (s2l "#4FD1C5", s2l "#0891B2"),
  (s2l "#81E6D9", s2l "#06B6D4"),
  (s2l "#38D4B2", s2l "#0891B2"),
  (s2l "#B2F5EA", s2l "#06B6D4"),
  (s2l "#4A5568", s2l "#6B7280"),
  (s2l "#718096", s2l "#6B7280"),
  (s2l "#888", s2l "#6B7280")]

/-- The four case-sensitive `str.replace` calls performed for one table
entry: `fill="old"`, `stroke="old"`, and the same with
`old_color.lower()`. -/
def colorPairSubs (pr : List Char × List Char) : List (List Char × List Char) :=
  [ (s2l "fill=\"" ++ pr.1 ++ s2l "\"", s2l "fill=\"" ++ pr.2 ++ s2l "\""),
    (s2l "stroke=\"" ++ pr.1 ++ s2l "\"", s2l "stroke=\"" ++ pr.2 ++ s2l "\""),
    (s2l "fill=\"" ++ lowerL pr.1 ++ s2l "\"", s2l "fill=\"" ++ pr.2 ++ s2l "\""),
    (s2l "stroke=\"" ++ lowerL pr.1 ++ s2l "\"", s2l "stroke=\"" ++ pr.2 ++ s2l "\"") ]

/-- All substitutions of the color-remap loop, in execution order. -/
def colorSubs : List (List Char × List Char) := color_map.flatMap colorPairSubs

/-- The color-remap loop of `fix_svg_file` in `fix_all_svgs.py`. -/
def applyColorMap (s : List Char) : List Char := applySubs colorSubs s

/-- The per-file skip structure of `fix_svg_file`: font/favicon paths
are never written; all other files are rebuilt and written
unconditionally.  The content transformation (header rebuild, font
sizes, `applyColorMap`, ...) is abstracted as `transform`, since the
frame claims do not depend on it. -/
def fixAllFileStep (transform : List Char → List Char) (path content : List Char) :
    Option (List Char) :=
  if pathSkip path then none else some (transform content)

/-- The additional skip in `main`'s loop before `fix_svg_file` is even
called. -/
def fixAllMainStep (transform : List Char → List Char) (path content : List Char) :
    Option (List Char) :=
  if pathSkip path then none else fixAllFileStep transform path content

end FixAllSvgs

/-! ## §9 `beautify_all_svgs.py` (skip structure) -/

namespace BeautifyAllSvgs

/-- The per-file decision of `process_all_svgs` in
`beautify_all_svgs.py`: font/favicon paths are skipped before the file
is even read, already-beautified contents are skipped, everything else
is transformed by `create_improved_svg` (abstracted as `transform`,
since the frame claims do not depend on it) and written. -/
def beautifyStep (transform : List Char → List Char) (path content : List Char) :
    Option (List Char) :=
  if pathSkip path then none
  else if subB (s2l "Beautiful gradient definitions") content then none
  else some (transform content)

end BeautifyAllSvgs

/-! ## §10 `rebuild_svgs.py` (`create_curved_arrow`) -/

namespace RebuildSvgs

/-- `f"{x},{y}"` for a coordinate pair. -/
def ptText (p : ℤ × ℤ) : List Char := intRepr p.1 ++ s2l "," ++ intRepr p.2

/-- `create_curved_arrow` of `rebuild_svgs.py`.  The `opacity`
parameter is a Python float whose formatted attribute text
(`f' opacity="{opacity}"'` when `opacity < 1.0`, empty otherwise) is
taken here as the opaque parameter `opacity_attr`; none of the claims
depend on it. -/
def create_curved_arrow (points : List (ℤ × ℤ)) (dashed : Bool)
    (opacity_attr : List Char) : List Char :=
  let dash_attr := if dashed then s2l " stroke-dasharray=\"3,3\"" else []
  if points.length < 3 then []
  else
    match points with
    | [] => []
    | p0 :: rest =>
      let path :=
        if points.length = 3 then
          match rest with
          | p1 :: p2 :: _ =>
            s2l "M" ++ ptText p0 ++ s2l " Q" ++ ptText p1 ++ s2l " " ++ ptText p2
          | _ => []
        else
          rest.foldl (fun acc p => acc ++ (s2l " L" ++ ptText p)) (s2l "M" ++ ptText p0)
      s2l "<path d=\"" ++ path ++ s2l "\" marker-end=\"url(#arrow)\""
        ++ dash_attr ++ opacity_attr ++ s2l "/>"

end RebuildSvgs

/-! ## §11 The main loop of `fix_svgs_properly.py` (error handling) -/

namespace FixSvgsProperly

/-- The observable input of one file in a run of `process_all_svgs`:
the outcome of reading it and whether writing it back succeeds. -/
structure PFile where
  readRes : Except Unit (List Char)
  writeOk : Bool

/-- The per-file outcome the loop records: transformed and written, or
an exception caught by the per-file `try`. -/
inductive PRes
  | done (c : List Char)
  | failed
deriving DecidableEq, Repr

/-- The body of the `for svg_file in svg_files` loop for a single
file: a failing read or write raises, and the surrounding `try` turns
that into a counted error. -/
def properlyFileStep (f : PFile) : PRes :=
  match f.readRes with
  | .error _ => .failed
  | .ok c => if f.writeOk then .done (fix_svg_content c) else .failed

/-- The loop with its running `(fixed, errors)` counters. -/
def properlyLoopAux : ℕ × ℕ → List PFile → List PRes × ℕ × ℕ
  | acc, [] => ([], acc)
  | acc, f :: fs =>
    match properlyFileStep f with
    | .done c =>
      let rest := properlyLoopAux (acc.1 + 1, acc.2) fs
      (.done c :: rest.1, rest.2)
    | .failed =>
      let rest := properlyLoopAux (acc.1, acc.2 + 1) fs
      (.failed :: rest.1, rest.2)

/-- The whole per-file loop of `process_all_svgs`, returning each
file's outcome in order together with the final counters. -/
def properlyLoop (fs : List PFile) : List PRes × ℕ × ℕ :=
  properlyLoopAux (0, 0) fs

end FixSvgsProperly

/-! ## §12 Observation helpers used by claim statements -/

/-- All values of `font-size="(\d+)"` attributes in a string, in order
(the scan of `re.findall`, non-overlapping). -/
def fontSizeValsF : ℕ → List Char → List ℕ
  | _, [] => []
  | 0, _ => []
  | fuel + 1, c :: s =>
    match matchKeyDigits (s2l "font-size=\"") (c :: s) with
    | some (n, ds) => digitsToNat ds :: fontSizeValsF fuel ((c :: s).drop n)
    | none => fontSizeValsF fuel s

/-- Values of all integer `font-size` attributes of a string. -/
def fontSizeVals (s : List Char) : List ℕ := fontSizeValsF s.length s

/-! ## Claim theorems -/

/-- **C1**: for the input
`<rect fill="#FAFAFA" stroke-width="1" width="100" height="50"/>`,
`fix_svg_content` of `fix_svgs_properly.py` yields output containing a
rect with no `fill="#FAFAFA"` attribute and with `stroke-width="2"`
(the color remap rewrites the fill to `transparent` and the
stroke-width rule widens the stroke). -/
theorem claim_C1_concrete_scenario :
    FixSvgsProperly.fix_svg_content
        (s2l "<rect fill=\"#FAFAFA\" stroke-width=\"1\" width=\"100\" height=\"50\"/>")
      = s2l "<rect fill=\"transparent\" stroke-width=\"2\" width=\"100\" height=\"50\"/>"
    ∧ subB (s2l "fill=\"#FAFAFA\"")
        (FixSvgsProperly.fix_svg_content
          (s2l "<rect fill=\"#FAFAFA\" stroke-width=\"1\" width=\"100\" height=\"50\"/>"))
      = false
    ∧ subB (s2l "stroke-width=\"2\"")
        (FixSvgsProperly.fix_svg_content
          (s2l "<rect fill=\"#FAFAFA\" stroke-width=\"1\" width=\"100\" height=\"50\"/>"))
      = true
    ∧ subB (s2l "<rect")
        (FixSvgsProperly.fix_svg_content
          (s2l "<rect fill=\"#FAFAFA\" stroke-width=\"1\" width=\"100\" height=\"50\"/>"))
      = true := by
  decide

/-- **C2, counterexample**: the end-to-end claim fails on
`fix_svgs_properly.py`.  The input below has one integer font-size
attribute (20), yet the output contains `font-size="1"`, far below the
stated minimum 16: the font-size pass cannot match
`font-size="1<rect fill="white">"`, and the later rect-removal step
deletes the `<rect ...>` text, joining `font-size="1` with `"` into a
fresh small font-size attribute. -/
theorem claim_C2_counterexample :
    fontSizeVals (s2l "font-size=\"20\" font-size=\"1<rect fill=\"white\">\"") = [20]
    ∧ fontSizeVals (FixSvgsProperly.fix_svg_content
        (s2l "font-size=\"20\" font-size=\"1<rect fill=\"white\">\"")) = [24, 1]
    ∧ (1 : ℕ) < 16 := by
  decide

/-- **C2, amended**: every `font-size` attribute actually rewritten by a
script's font-size rule satisfies the script's stated minimum (16 for
`fix_svgs_properly.py` and `minimal_svg_fix.py`, 14 for
`safe_svg_improve.py`, which returns matches of value at least 14
verbatim); the end-to-end output bound fails only because later
removal steps can re-form smaller attributes from joined text. -/
theorem claim_C2_font_rule_minimums (ds : List Char) :
    (∃ m, FixSvgsProperly.increase_font_size ds
        = s2l "font-size=\"" ++ natRepr m ++ s2l "\"" ∧ 16 ≤ m)
    ∧ (∃ m, MinimalSvgFix.fix_font_size ds
        = s2l "font-size=\"" ++ natRepr m ++ s2l "\"" ∧ 16 ≤ m)
    ∧ ((∃ m, SafeSvgImprove.increase_font_size ds
          = s2l "font-size=\"" ++ natRepr m ++ s2l "\"" ∧ 14 ≤ m)
        ∨ (SafeSvgImprove.increase_font_size ds = s2l "font-size=\"" ++ ds ++ s2l "\""
          ∧ 14 ≤ digitsToNat ds)) := by
  refine ⟨?_, ?_, ?_⟩
  · simp only [FixSvgsProperly.increase_font_size]
    split_ifs with h1 h2 h3
    · exact ⟨16, by decide, by omega⟩
    · exact ⟨18, by decide, by omega⟩
    · exact ⟨20, by decide, by omega⟩
    · exact ⟨digitsToNat ds + 4, rfl, by omega⟩
  · simp only [MinimalSvgFix.fix_font_size]
    split_ifs with h1 h2 h3
    · exact ⟨16, by decide, by omega⟩
    · exact ⟨18, by decide, by omega⟩
    · exact ⟨20, by decide, by omega⟩
    · exact ⟨digitsToNat ds + 4, rfl, by omega⟩
  · simp only [SafeSvgImprove.increase_font_size]
    split_ifs with h1 h2
    · exact Or.inl ⟨14, by decide, by omega⟩
    · exact Or.inl ⟨14, by decide, by omega⟩
    · refine Or.inr ⟨rfl, ?_⟩
      rcases not_or.mp h2 with ⟨h3, h4⟩
      omega

/-- **C5, counterexample**: `fix_malformed_attributes` of
`fix_svg_attributes.py` is not idempotent: on `="a"//` the first pass
rewrites `="a"/` (consuming one slash, leaving the second outside the
scanned match), and a second pass removes the remaining slash. -/
theorem claim_C5_counterexample :
    FixSvgAttributes.fix_malformed_attributes
        (FixSvgAttributes.fix_malformed_attributes (s2l "=\"a\"//"))
      ≠ FixSvgAttributes.fix_malformed_attributes (s2l "=\"a\"//") := by
  decide

/-- **C5, amended**: a second run of `fix_malformed_attributes` on its
own output can strictly remove further text targeted by its own
patterns rather than reintroduce any: on `="a"//` the passes give
`="a"/`, then `="a"`, which is a fixed point (the third application
changes nothing). -/
theorem claim_C5_second_pass :
    FixSvgAttributes.fix_malformed_attributes (s2l "=\"a\"//") = s2l "=\"a\"/"
    ∧ FixSvgAttributes.fix_malformed_attributes (s2l "=\"a\"/") = s2l "=\"a\""
    ∧ FixSvgAttributes.fix_malformed_attributes (s2l "=\"a\"") = s2l "=\"a\"" := by
  decide

/-- **C7, counterexample**: `fix_svgs_properly.py` and
`minimal_svg_fix.py` write every processed file back unconditionally;
on empty content, whose transformation is the identity, both still
write (the `true` flags), contradicting the claim that a file is
rewritten only when the transformed content differs. -/
theorem claim_C7_counterexample :
    FixSvgsProperly.process_all_svgs [(s2l "docs/a.svg", [])]
      = [(s2l "docs/a.svg", [], true)]
    ∧ FixSvgsProperly.fix_svg_content [] = []
    ∧ MinimalSvgFix.minimal_fix_svg (s2l "docs/a.svg") [] = ([], true) := by
  decide

/-- **C7, amended**: `fix_svg_attributes.py` and `safe_svg_improve.py`
write back only when the transformed content differs (unchanged content
is reported as unchanged and not written); `fix_svgs_properly.py` and
`minimal_svg_fix.py` instead write every processed (non-skipped) file
back unconditionally. -/
theorem claim_C7_write_conditions :
    (∀ path content w, FixSvgAttributes.fix_malformed_attributes content = content →
        FixSvgAttributes.fix_svg_file path (Except.ok content) w
          = (if pathSkip path then FixSvgAttributes.FixStatus.skipped
             else FixSvgAttributes.FixStatus.unchanged, none))
    ∧ (∀ f : SafeSvgImprove.SafeFile,
        SafeSvgImprove.safeTransform f.content = f.content →
        SafeSvgImprove.safe_improve_svg f = (f, false))
    ∧ (∀ path content, pathSkip path = false →
        MinimalSvgFix.minimal_fix_svg path content
          = (MinimalSvgFix.minimalTransform content, true))
    ∧ (∀ files : List (List Char × List Char),
        ∀ e ∈ FixSvgsProperly.process_all_svgs files, e.2.2 = true) := by
  refine ⟨?_, ?_, ?_, ?_⟩
  · intro path content w h
    simp only [FixSvgAttributes.fix_svg_file, h, beq_self_eq_true, if_true]
    split_ifs <;> rfl
  · intro f h
    simp only [SafeSvgImprove.safe_improve_svg, h, beq_self_eq_true, if_true]
    split_ifs <;> rfl
  · intro path content h
    simp [MinimalSvgFix.minimal_fix_svg, h]
  · intro files e he
    simp only [FixSvgsProperly.process_all_svgs, List.mem_map] at he
    obtain ⟨x, -, rfl⟩ := he
    rfl

/-- Witness for the C7 amended theorem at concrete inputs: `abc` is a
fixed point of `fix_malformed_attributes` and is reported unchanged,
not written; a non-skipped path through `minimal_fix_svg` is always
written. -/
theorem claim_C7_write_conditions_witness :
    FixSvgAttributes.fix_svg_file (s2l "docs/a.svg") (Except.ok (s2l "abc")) true
      = (FixSvgAttributes.FixStatus.unchanged, none)
    ∧ MinimalSvgFix.minimal_fix_svg (s2l "docs/a.svg") (s2l "abc")
      = (MinimalSvgFix.minimalTransform (s2l "abc"), true) := by
  constructor
  · have h := claim_C7_write_conditions.1 (s2l "docs/a.svg") (s2l "abc") true (by decide)
    rw [h]
    decide
  · exact claim_C7_write_conditions.2.2.1 _ _ (by decide)

/-- **C8, counterexample**: when a sibling `.backup` file already
exists, `safe_improve_svg` keeps it (`if not os.path.exists`): after a
run that modifies the file, the backup's content is the pre-existing
`OLD`, not the file's pre-transform content, contradicting the claim as
stated. -/
theorem claim_C8_counterexample :
    (SafeSvgImprove.safe_improve_svg
        ⟨s2l "docs/a.svg", s2l "<a stroke-width=\"1\"/>", some (s2l "OLD")⟩).1.backup
      = some (s2l "OLD")
    ∧ SafeSvgImprove.safeTransform (s2l "<a stroke-width=\"1\"/>")
        ≠ s2l "<a stroke-width=\"1\"/>"
    ∧ (s2l "OLD") ≠ (s2l "<a stroke-width=\"1\"/>") := by
  decide

/-- **C8, amended**: for every non-skipped file that
`safe_svg_improve.py` modifies, after the call a sibling `.backup`
exists; its content equals the file's pre-transform content whenever no
`.backup` existed before the run (a pre-existing backup is never
overwritten). -/
theorem claim_C8_backup_created (f : SafeSvgImprove.SafeFile)
    (hskip : pathSkip f.path = false)
    (hmod : SafeSvgImprove.safeTransform f.content ≠ f.content) :
    (SafeSvgImprove.safe_improve_svg f).1.content
        = SafeSvgImprove.safeTransform f.content
    ∧ (SafeSvgImprove.safe_improve_svg f).2 = true
    ∧ ((SafeSvgImprove.safe_improve_svg f).1.backup).isSome = true
    ∧ (f.backup = none →
        (SafeSvgImprove.safe_improve_svg f).1.backup = some f.content) := by
  have hbeq : (SafeSvgImprove.safeTransform f.content == f.content) = false := by
    rw [beq_eq_false_iff_ne]
    exact hmod
  simp only [SafeSvgImprove.safe_improve_svg, hskip, hbeq]
  simp only [Bool.false_eq_true, if_false]
  refine ⟨by trivial, by trivial, ?_, ?_⟩
  · cases hb : f.backup <;> simp [hb]
  · intro hb
    simp [hb]

/-- Witness for the C8 amended theorem: a concrete non-skipped file
with content `<a stroke-width="1"/>` (which the transform changes) and
no pre-existing backup gets a backup holding the original content. -/
theorem claim_C8_backup_created_witness :
    pathSkip (s2l "docs/a.svg") = false
    ∧ SafeSvgImprove.safeTransform (s2l "<a stroke-width=\"1\"/>")
        ≠ s2l "<a stroke-width=\"1\"/>"
    ∧ (SafeSvgImprove.safe_improve_svg
        ⟨s2l "docs/a.svg", s2l "<a stroke-width=\"1\"/>", none⟩).1.backup
      = some (s2l "<a stroke-width=\"1\"/>") :=
  ⟨by decide, by decide,
    (claim_C8_backup_created
      ⟨s2l "docs/a.svg", s2l "<a stroke-width=\"1\"/>", none⟩
      (by decide) (by decide)).2.2.2 rfl⟩

/-- **C10, counterexample**: the line-based rect repair is keyed on
substring containment of the whole line, not on the tag that owns the
`/>`: on the single-line input `<rect fill="none"> <line x1="1"/>`, the
catch-all pass removes the `<line>` tag's slash, but the line pass (the
line contains `<rect`, a `fill="none"`, and ends with `>`) re-appends
`/>` at the end of the line, so the `<line>` tag — not a `<rect>` on
its own line — ends self-closing after all; the whole input is a fixed
point, contradicting the claim that such a tag ends with `>`. -/
theorem claim_C10_counterexample :
    FixSvgAttributes.fix_malformed_attributes
        (s2l "<rect fill=\"none\"> <line x1=\"1\"/>")
      = s2l "<rect fill=\"none\"> <line x1=\"1\"/>"
    ∧ subB (s2l "<line x1=\"1\"/>")
        (s2l "<rect fill=\"none\"> <line x1=\"1\"/>") = true := by
  decide

/-- **C10, amended**: on single-tag inputs the slash-removal behaves as
claimed — a well-formed `<line .../>` and a solid-fill `<rect .../>`
lose their self-closing slash, while a `<rect fill="none"/>` on its own
line has its `/>` restored by the line pass; but the restoration is
line-based (substring containment), so when the same line also contains
`<rect` and a none/transparent/white fill, a non-rect tag's `/>` is
restored too.  In particular there exist well-formed self-closing
inputs whose output is no longer self-closing. -/
theorem claim_C10_slash_families :
    FixSvgAttributes.fix_malformed_attributes (s2l "<line x1=\"1\" y1=\"2\"/>")
      = s2l "<line x1=\"1\" y1=\"2\">"
    ∧ FixSvgAttributes.fix_malformed_attributes (s2l "<rect fill=\"#333\"/>")
      = s2l "<rect fill=\"#333\">"
    ∧ FixSvgAttributes.fix_malformed_attributes (s2l "<rect fill=\"none\"/>")
      = s2l "<rect fill=\"none\"/>"
    ∧ FixSvgAttributes.fix_malformed_attributes
        (s2l "<rect fill=\"none\"> <line x1=\"1\"/>")
      = s2l "<rect fill=\"none\"> <line x1=\"1\"/>" := by
  decide

/-- **C4**: every path containing `fontawesome` or `favicon`
(case-insensitively) is left untouched by every batch script:
`fix_svgs_properly.py` filters such files out of its work list;
`fix_svg_attributes.py`, `safe_svg_improve.py` and `minimal_svg_fix.py`
return from the per-file function before writing; `fix_all_svgs.py`
skips both in its main loop and in its per-file function (stated for
every content transformation `t`); `beautify_all_svgs.py` skips in its
loop before even reading (also stated for every `t`).
(`validate_svgs.py` writes no files at all, and `rebuild_svgs.py`
writes only three fixed paths, none containing the substrings.) -/
theorem claim_C4_skip_rule :
    (∀ files : List (List Char × List Char),
        ∀ e ∈ FixSvgsProperly.process_all_svgs files, pathSkip e.1 = false)
    ∧ (∀ path rc w, pathSkip path = true →
        (FixSvgAttributes.fix_svg_file path rc w).2 = none)
    ∧ (∀ f : SafeSvgImprove.SafeFile, pathSkip f.path = true →
        SafeSvgImprove.safe_improve_svg f = (f, false))
    ∧ (∀ path content, pathSkip path = true →
        MinimalSvgFix.minimal_fix_svg path content = (content, false))
    ∧ (∀ t path content, pathSkip path = true →
        FixAllSvgs.fixAllFileStep t path content = none
        ∧ FixAllSvgs.fixAllMainStep t path content = none)
    ∧ (∀ t path content, pathSkip path = true →
        BeautifyAllSvgs.beautifyStep t path content = none) := by
  refine ⟨?_, ?_, ?_, ?_, ?_, ?_⟩
  · intro files e he
    simp only [FixSvgsProperly.process_all_svgs, List.mem_map,
      List.mem_filter] at he
    obtain ⟨x, ⟨-, hx⟩, rfl⟩ := he
    rw [Bool.not_eq_true'] at hx
    exact hx
  · intro path rc w h
    cases rc with
    | error e => rfl
    | ok content => simp [FixSvgAttributes.fix_svg_file, h]
  · intro f h
    simp [SafeSvgImprove.safe_improve_svg, h]
  · intro path content h
    simp [MinimalSvgFix.minimal_fix_svg, h]
  · intro t path content h
    exact ⟨by simp [FixAllSvgs.fixAllFileStep, h],
      by simp [FixAllSvgs.fixAllMainStep, h]⟩
  · intro t path content h
    simp [BeautifyAllSvgs.beautifyStep, h]

/-- Witness for the C4 skip rule at a concrete font path, with the skip
hypotheses discharged by computation. -/
theorem claim_C4_skip_rule_witness :
    pathSkip (s2l "docs/FontAwesome/brands.svg") = true
    ∧ (FixSvgAttributes.fix_svg_file (s2l "docs/FontAwesome/brands.svg")
        (Except.ok (s2l "rx=\"5\"/")) true).2 = none
    ∧ MinimalSvgFix.minimal_fix_svg (s2l "docs/FontAwesome/brands.svg") (s2l "x")
      = (s2l "x", false)
    ∧ BeautifyAllSvgs.beautifyStep id (s2l "docs/FAVICON.svg") (s2l "x") = none :=
  ⟨by decide,
   claim_C4_skip_rule.2.1 _ _ _ (by decide),
   claim_C4_skip_rule.2.2.2.1 _ _ (by decide),
   claim_C4_skip_rule.2.2.2.2.2 id _ _ (by decide)⟩

/-- Whether a per-file outcome of the `fix_svgs_properly.py` loop is a
success. -/
def pResIsDone : FixSvgsProperly.PRes → Bool
  | .done _ => true
  | .failed => false

theorem properlyLoopAux_spec :
    ∀ (fs : List FixSvgsProperly.PFile) (a b : ℕ),
      FixSvgsProperly.properlyLoopAux (a, b) fs
        = (fs.map FixSvgsProperly.properlyFileStep,
           a + fs.countP (fun f => pResIsDone (FixSvgsProperly.properlyFileStep f)),
           b + fs.countP (fun f => !(pResIsDone (FixSvgsProperly.properlyFileStep f)))) := by
  intro fs
  induction fs with
  | nil =>
    intro a b
    simp [FixSvgsProperly.properlyLoopAux]
  | cons f fs ih =>
    intro a b
    cases h : FixSvgsProperly.properlyFileStep f <;>
      simp [FixSvgsProperly.properlyLoopAux, h, ih (a + 1) b, ih a (b + 1),
        List.countP_cons, pResIsDone, Prod.mk.injEq] <;>
      omega

theorem attrsLoopAux_spec :
    ∀ (fs : List FixSvgAttributes.AttrsFile) (acc : FixSvgAttributes.AttrsStats),
      FixSvgAttributes.attrsLoopAux acc fs
        = (fs.map FixSvgAttributes.attrsStep,
           ⟨acc.fixed + fs.countP
              (fun f => decide (FixSvgAttributes.attrsStep f = .fixed)),
            acc.unchanged + fs.countP
              (fun f => decide (FixSvgAttributes.attrsStep f = .unchanged)),
            acc.skipped + fs.countP
              (fun f => decide (FixSvgAttributes.attrsStep f = .skipped)),
            acc.error + fs.countP
              (fun f => decide (FixSvgAttributes.attrsStep f = .error))⟩) := by
  intro fs
  induction fs with
  | nil =>
    intro acc
    simp [FixSvgAttributes.attrsLoopAux]
  | cons f fs ih =>
    intro acc
    cases h : FixSvgAttributes.attrsStep f <;>
      simp [FixSvgAttributes.attrsLoopAux, h, ih, FixSvgAttributes.bumpStats,
        List.countP_cons, Prod.mk.injEq, FixSvgAttributes.AttrsStats.mk.injEq] <;>
      omega

/-- **C6**: in both cited batch loops a failure (read or write
exception) on one file is caught and counted, and every other file is
still processed: the loop's outcome list is exactly the map of the
per-file step over the input list (so no file's processing depends on
any other file's failure), the success counter counts exactly the
non-failing files, and the error counter the failing ones; the
analogous statement holds for the four status counters of
`fix_svg_attributes.py`. -/
theorem claim_C6_error_isolation :
    (∀ fs : List FixSvgsProperly.PFile,
        FixSvgsProperly.properlyLoop fs
          = (fs.map FixSvgsProperly.properlyFileStep,
             fs.countP (fun f => pResIsDone (FixSvgsProperly.properlyFileStep f)),
             fs.countP (fun f => !(pResIsDone (FixSvgsProperly.properlyFileStep f)))))
    ∧ (∀ fs : List FixSvgAttributes.AttrsFile,
        FixSvgAttributes.attrsLoop fs
          = (fs.map FixSvgAttributes.attrsStep,
             ⟨fs.countP (fun f => decide (FixSvgAttributes.attrsStep f = .fixed)),
              fs.countP (fun f => decide (FixSvgAttributes.attrsStep f = .unchanged)),
              fs.countP (fun f => decide (FixSvgAttributes.attrsStep f = .skipped)),
              fs.countP (fun f => decide (FixSvgAttributes.attrsStep f = .error))⟩)) := by
  constructor
  · intro fs
    have h := properlyLoopAux_spec fs 0 0
    simpa [FixSvgsProperly.properlyLoop] using h
  · intro fs
    have h := attrsLoopAux_spec fs ⟨0, 0, 0, 0⟩
    simpa [FixSvgAttributes.attrsLoop] using h

/-- `foldl` of append equals the flattened map (shape of the `L`
segment loop in `create_curved_arrow`). -/
theorem foldl_append_flatten (f : ℤ × ℤ → List Char) :
    ∀ (l : List (ℤ × ℤ)) (a : List Char),
      l.foldl (fun acc p => acc ++ f p) a = a ++ (l.map f).flatten := by
  intro l
  induction l with
  | nil => intro a; simp
  | cons p ps ih => intro a; simp [ih, List.append_assoc]

/-- **C9**: `create_curved_arrow` returns the empty string for fewer
than 3 points; for exactly 3 points a `<path>` whose `d` attribute is a
move followed by a single quadratic Bezier through the middle point;
for more than 3 points a move followed by one straight `L` segment per
remaining point; in both non-empty cases the element carries
`marker-end="url(#arrow)"`. -/
theorem claim_C9_create_curved_arrow :
    (∀ (points : List (ℤ × ℤ)) dashed op, points.length < 3 →
        RebuildSvgs.create_curved_arrow points dashed op = [])
    ∧ (∀ p0 p1 p2 dashed op,
        RebuildSvgs.create_curved_arrow [p0, p1, p2] dashed op
          = s2l "<path d=\"" ++ (s2l "M" ++ RebuildSvgs.ptText p0 ++ s2l " Q"
              ++ RebuildSvgs.ptText p1 ++ s2l " " ++ RebuildSvgs.ptText p2)
            ++ s2l "\" marker-end=\"url(#arrow)\""
            ++ (if dashed then s2l " stroke-dasharray=\"3,3\"" else []) ++ op ++ s2l "/>")
    ∧ (∀ p0 ps dashed op, 3 ≤ ps.length →
        RebuildSvgs.create_curved_arrow (p0 :: ps) dashed op
          = s2l "<path d=\"" ++ (s2l "M" ++ RebuildSvgs.ptText p0
              ++ (ps.map (fun p => s2l " L" ++ RebuildSvgs.ptText p)).flatten)
            ++ s2l "\" marker-end=\"url(#arrow)\""
            ++ (if dashed then s2l " stroke-dasharray=\"3,3\"" else []) ++ op ++ s2l "/>")
    ∧ (∀ (points : List (ℤ × ℤ)) dashed op, 3 ≤ points.length →
        subOf (s2l "marker-end=\"url(#arrow)\"")
          (RebuildSvgs.create_curved_arrow points dashed op)) := by
  have h3 : ∀ (p0 p1 p2 : ℤ × ℤ) dashed op,
      RebuildSvgs.create_curved_arrow [p0, p1, p2] dashed op
        = s2l "<path d=\"" ++ (s2l "M" ++ RebuildSvgs.ptText p0 ++ s2l " Q"
            ++ RebuildSvgs.ptText p1 ++ s2l " " ++ RebuildSvgs.ptText p2)
          ++ s2l "\" marker-end=\"url(#arrow)\""
          ++ (if dashed then s2l " stroke-dasharray=\"3,3\"" else []) ++ op ++ s2l "/>" := by
    intro p0 p1 p2 dashed op
    simp [RebuildSvgs.create_curved_arrow]
  have hmore : ∀ (p0 : ℤ × ℤ) ps dashed op, 3 ≤ ps.length →
      RebuildSvgs.create_curved_arrow (p0 :: ps) dashed op
        = s2l "<path d=\"" ++ (s2l "M" ++ RebuildSvgs.ptText p0
            ++ (ps.map (fun p => s2l " L" ++ RebuildSvgs.ptText p)).flatten)
          ++ s2l "\" marker-end=\"url(#arrow)\""
          ++ (if dashed then s2l " stroke-dasharray=\"3,3\"" else []) ++ op ++ s2l "/>" := by
    intro p0 ps dashed op hlen
    simp only [RebuildSvgs.create_curved_arrow, List.length_cons]
    rw [if_neg (by omega), if_neg (by omega)]
    rw [foldl_append_flatten]
  refine ⟨?_, h3, hmore, ?_⟩
  · intro points dashed op hlen
    simp [RebuildSvgs.create_curved_arrow, if_pos hlen]
  · intro points dashed op hlen
    match points, hlen with
    | p0 :: p1 :: p2 :: rest, _ =>
      cases rest with
      | nil =>
        rw [h3]
        refine ⟨s2l "<path d=\"" ++ (s2l "M" ++ RebuildSvgs.ptText p0 ++ s2l " Q"
            ++ RebuildSvgs.ptText p1 ++ s2l " " ++ RebuildSvgs.ptText p2) ++ s2l "\" ",
          (if dashed then s2l " stroke-dasharray=\"3,3\"" else []) ++ op ++ s2l "/>", ?_⟩
        have hsplit : s2l "\" marker-end=\"url(#arrow)\""
            = s2l "\" " ++ s2l "marker-end=\"url(#arrow)\"" := by decide
        rw [hsplit]
        simp [List.append_assoc]
      | cons q qs =>
        rw [hmore p0 (p1 :: p2 :: q :: qs) dashed op (by simp)]
        refine ⟨s2l "<path d=\"" ++ (s2l "M" ++ RebuildSvgs.ptText p0
            ++ ((p1 :: p2 :: q :: qs).map (fun p => s2l " L" ++ RebuildSvgs.ptText p)).flatten)
          ++ s2l "\" ",
          (if dashed then s2l " stroke-dasharray=\"3,3\"" else []) ++ op ++ s2l "/>", ?_⟩
        have hsplit : s2l "\" marker-end=\"url(#arrow)\""
            = s2l "\" " ++ s2l "marker-end=\"url(#arrow)\"" := by decide
        rw [hsplit]
        simp [List.append_assoc]

/-- Witness for C9 at concrete point lists: two points give the empty
string, three points give the quadratic-Bezier path, four points carry
the arrow marker. -/
theorem claim_C9_create_curved_arrow_witness :
    RebuildSvgs.create_curved_arrow [((0 : ℤ), (0 : ℤ)), (1, 1)] false [] = []
    ∧ RebuildSvgs.create_curved_arrow
        [((240 : ℤ), (180 : ℤ)), (200, 140), (300, 100)] true []
      = s2l "<path d=\"M240,180 Q200,140 300,100\" marker-end=\"url(#arrow)\" stroke-dasharray=\"3,3\"/>"
    ∧ subOf (s2l "marker-end=\"url(#arrow)\"")
        (RebuildSvgs.create_curved_arrow
          [((420 : ℤ), (200 : ℤ)), (420, 240), (630, 240), (630, 100)] true []) := by
  refine ⟨claim_C9_create_curved_arrow.1 _ false [] (by decide), ?_,
    claim_C9_create_curved_arrow.2.2.2 _ true [] (by decide)⟩
  rw [claim_C9_create_curved_arrow.2.1]
  decide

/-- **C3, counterexample**: the end-to-end claim fails on
`fix_svgs_properly.py`.  The table maps `#CBD5E0` to `#1F2937`, yet on
the input below the output contains `fill="#CBD5E0"`: the remap loop
finds no occurrence (the attribute text is interrupted by a `<rect>`
tag), and the later background-removal step deletes
`<rect fill="white">`, joining the surrounding text into a fresh
occurrence of the supposedly-eliminated attribute. -/
theorem claim_C3_counterexample :
    FixSvgsProperly.fix_svg_content (s2l "fill=\"#CBD<rect fill=\"white\">5E0\"")
      = s2l "fill=\"#CBD5E0\""
    ∧ subB (s2l "fill=\"#CBD5E0\"")
        (FixSvgsProperly.fix_svg_content
          (s2l "fill=\"#CBD<rect fill=\"white\">5E0\"")) = true
    ∧ (s2l "#CBD5E0", s2l "#1F2937") ∈ FixSvgsProperly.color_replacements := by
  decide

set_option maxHeartbeats 4000000 in
/-- Every pattern of the `minimal_svg_fix.py` replace chain is
eliminated by its own substitution and protected by all later ones. -/
theorem minimal_subs_check :
    MinimalSvgFix.colorSubs.all
      (fun pr => elimIn MinimalSvgFix.colorSubs pr.1) = true := by
  decide

/-- The fill/stroke patterns of the `fix_all_svgs.py` table as written
(the exact-case substitutions of its replace chain). -/
def fixAllAttrPatterns : List (List Char) :=
  FixAllSvgs.color_map.flatMap (fun pr =>
    [s2l "fill=\"" ++ pr.1 ++ s2l "\"", s2l "stroke=\"" ++ pr.1 ++ s2l "\""])

set_option maxHeartbeats 16000000 in
/-- Every exact-case table pattern of `fix_all_svgs.py` is nonempty and
appears as a pattern of its replace chain. -/
theorem fixall_patterns_check :
    fixAllAttrPatterns.all
      (fun q => !(q.isEmpty) && FixAllSvgs.colorSubs.any (fun pr => pr.1 == q)) = true := by
  decide

set_option maxHeartbeats 16000000 in
/-- Every table pattern of `fix_all_svgs.py` is protected by every
distinct replacement text of its replace chain. -/
theorem fixall_safe_check :
    ((FixAllSvgs.colorSubs.map Prod.snd).dedup).all
      (fun r => fixAllAttrPatterns.all (fun q => safeCond q r)) = true := by
  decide

/-- **C3, amended**: the color-remap chains of `minimal_svg_fix.py` and
`fix_all_svgs.py` (a sequence of literal `str.replace` calls, including
the latter's lower-cased variants) eliminate every occurrence of every
pattern of their tables, for every input string.  For
`fix_svgs_properly.py` even this loop-internal guarantee fails: a style
replacement whose inserted text ends in `f` (`fill:#90CDF4` becomes
`fill:#1E40AF`) can butt against following text and re-form a
`fill="old"` attribute case-insensitively inside the remap loop itself,
as the concrete run in the third conjunct shows; and the end-to-end
claim also fails through the rect-removal join (the counterexample). -/
theorem claim_C3_remap_loop_eliminates :
    (∀ pr ∈ MinimalSvgFix.colorSubs, ∀ s,
        subB pr.1 (MinimalSvgFix.applyColors s) = false)
    ∧ (∀ q ∈ fixAllAttrPatterns, ∀ s,
        subB q (FixAllSvgs.applyColorMap s) = false)
    ∧ (FixSvgsProperly.applyColorReplacements (s2l "fill:#90CDF4ill=\"#CBD5E0\"")
        = s2l "fill:#1E40AFill=\"#CBD5E0\""
      ∧ subB (lowerL (s2l "fill=\"#CBD5E0\""))
          (lowerL (FixSvgsProperly.applyColorReplacements
            (s2l "fill:#90CDF4ill=\"#CBD5E0\""))) = true
      ∧ (s2l "#CBD5E0", s2l "#1F2937") ∈ FixSvgsProperly.color_replacements) := by
  refine ⟨?_, ?_, ?_⟩
  · intro pr hpr s
    have helim := List.all_eq_true.mp minimal_subs_check pr hpr
    have hno := applySubs_elim _ _ helim s
    rw [Bool.eq_false_iff]
    intro hsub
    exact hno (subB_iff.mp hsub)
  · intro q hq s
    have hpat := List.all_eq_true.mp fixall_patterns_check q hq
    rw [Bool.and_eq_true] at hpat
    obtain ⟨hne, hmem⟩ := hpat
    rw [Bool.not_eq_true'] at hne
    have hall : ∀ pr ∈ FixAllSvgs.colorSubs, safeCond q pr.2 = true := by
      intro pr hpr
      have hr : pr.2 ∈ (FixAllSvgs.colorSubs.map Prod.snd).dedup := by
        rw [List.mem_dedup]
        exact List.mem_map_of_mem Prod.snd hpr
      have h2 := List.all_eq_true.mp fixall_safe_check pr.2 hr
      exact List.all_eq_true.mp h2 q hq
    have helim := elimIn_of_global FixAllSvgs.colorSubs q hne hmem hall
    have hno := applySubs_elim _ _ helim s
    rw [Bool.eq_false_iff]
    intro hsub
    exact hno (subB_iff.mp hsub)
  · exact ⟨by decide, by decide, by decide⟩

/-- Witness for the C3 amended theorem: the first table entry of
`minimal_svg_fix.py` and a concrete input containing the pattern. -/
theorem claim_C3_remap_loop_eliminates_witness :
    (s2l "fill=\"#CBD5E0\"", s2l "fill=\"#1F2937\"") ∈ MinimalSvgFix.colorSubs
    ∧ subB (s2l "fill=\"#CBD5E0\"")
        (MinimalSvgFix.applyColors (s2l "<text fill=\"#CBD5E0\">x</text>")) = false :=
  ⟨by decide,
    claim_C3_remap_loop_eliminates.1
      (s2l "fill=\"#CBD5E0\"", s2l "fill=\"#1F2937\"") (by decide)
      (s2l "<text fill=\"#CBD5E0\">x</text>")⟩

end SvgSpec
